import Mathlib

/-!
Shallow embedding of the SmartMealPlanner aggregation core
(src/mealplanner/nutritional_analysis.py, nutritional_goals.py,
shopping_list.py) over exact rationals.

Modelling conventions:
* Python `float` is modelled as `ℚ`; nullable SQL `Float` columns as `Option ℚ`.
* Python `round(x, 1)` (round-half-to-even on the scaled value) is modelled by
  `round1`, built on a computable floor `qfloor`; every concrete input used in
  a proof stays away from exact halves, where binary-float `round` and exact
  rational rounding could disagree.
* The database snapshot is an explicit read-only structure `DB` (tables as
  lists, row order = iteration order of the corresponding queries); the
  SQLAlchemy `first()` / `filter()` / join queries become `find?` / `filter` /
  `filterMap` over those lists.
* Python's stable list sort and the `ORDER BY` of the queries are modelled with
  `List.insertionSort`, which is stable and kernel-computable; for a total
  transitive comparator a stable sort is unique, so this is faithful.
* `dict` results keyed by a fixed small set are modelled as functions into
  `Option`; Python dict insertion/overwrite becomes `Function.update`.
* Dates are modelled as integers (day numbers); `timedelta(days=1)` is `+ 1`
  and `(e - s).days + 1` is `e - s + 1`.
-/

/-- Computable floor of a rational (`Int` division of numerator by
denominator; the denominator is positive, and `/` on `ℤ` rounds toward
negative infinity, so this is the true floor). -/
def qfloor (q : ℚ) : ℤ := q.num / q.den

theorem qfloor_eq_floor (q : ℚ) : qfloor q = Int.floor q := by
  rw [Rat.floor_def]; rfl

/-- Round a rational to the nearest integer, ties to even — the rounding mode
of Python's built-in `round`. -/
def roundHalfEven (q : ℚ) : ℤ :=
  if q - qfloor q < 1/2 then qfloor q
  else if 1/2 < q - qfloor q then qfloor q + 1
  else if Even (qfloor q) then qfloor q else qfloor q + 1

/-- Python's `round(x, 1)`: round to one decimal place. -/
def round1 (q : ℚ) : ℚ := (roundHalfEven (q * 10) : ℚ) / 10

theorem roundHalfEven_sub_le (q : ℚ) :
    (roundHalfEven q : ℚ) - q ≤ 1/2 ∧ q - (roundHalfEven q : ℚ) ≤ 1/2 := by
  have h1 : (qfloor q : ℚ) ≤ q := by rw [qfloor_eq_floor]; exact Int.floor_le q
  have h2 : q < (qfloor q : ℚ) + 1 := by rw [qfloor_eq_floor]; exact Int.lt_floor_add_one q
  unfold roundHalfEven
  split
  · rename_i hlt
    constructor <;> push_cast <;> linarith
  · rename_i hge
    push_neg at hge
    split
    · rename_i hgt
      constructor <;> push_cast <;> linarith
    · rename_i hle
      push_neg at hle
      split <;> constructor <;> push_cast <;> linarith


theorem round1_sub_le (q : ℚ) :
    round1 q - q ≤ 1/20 ∧ q - round1 q ≤ 1/20 := by
  have h := roundHalfEven_sub_le (q * 10)
  unfold round1
  constructor <;> linarith

theorem round1_zero : round1 0 = 0 := by
  norm_num [round1, roundHalfEven, qfloor]

/-- Evaluation helper: if `z` is within 1/2 (strictly) of `q`, then `q` rounds
to `z`.  Used to evaluate `roundHalfEven` on concrete non-tie inputs. -/
theorem roundHalfEven_eq_of_near (q : ℚ) (z : ℤ)
    (h1 : (z : ℚ) - q < 1/2) (h2 : q - (z : ℚ) < 1/2) : roundHalfEven q = z := by
  have hfl : qfloor q = Int.floor q := qfloor_eq_floor q
  have h1' : (qfloor q : ℚ) ≤ q := by rw [hfl]; exact Int.floor_le q
  have h2' : q < (qfloor q : ℚ) + 1 := by rw [hfl]; exact Int.lt_floor_add_one q
  -- z is either ⌊q⌋ or ⌊q⌋ + 1
  have hz : z = qfloor q ∨ z = qfloor q + 1 := by
    have ha : (qfloor q : ℚ) - 1/2 < (z : ℚ) := by linarith
    have hb : (z : ℚ) < (qfloor q : ℚ) + 3/2 := by linarith
    have ha' : qfloor q ≤ z := by
      by_contra hc
      push_neg at hc
      have : (z : ℚ) ≤ (qfloor q : ℚ) - 1 := by exact_mod_cast Int.le_sub_one_of_lt hc
      linarith
    have hb' : z ≤ qfloor q + 1 := by
      by_contra hc
      push_neg at hc
      have : ((qfloor q + 1 : ℤ) : ℚ) + 1 ≤ (z : ℚ) := by
        exact_mod_cast Int.add_one_le_of_lt hc
      push_cast at this
      linarith
    omega
  unfold roundHalfEven
  rcases hz with hz | hz
  · have hzq : (z : ℚ) = (qfloor q : ℚ) := by exact_mod_cast hz
    split
    · omega
    · rename_i hge
      push_neg at hge
      exfalso
      linarith
  · have hzq : (z : ℚ) = (qfloor q : ℚ) + 1 := by
      rw [hz]; push_cast; ring
    split
    · rename_i hlt
      exfalso
      linarith
    · rename_i hge
      push_neg at hge
      split
      · omega
      · rename_i hgt
        push_neg at hgt
        exfalso
        linarith

theorem round1_eq_of_near (q : ℚ) (z : ℤ)
    (h1 : (z : ℚ) - q * 10 < 1/2) (h2 : q * 10 - (z : ℚ) < 1/2) :
    round1 q = (z : ℚ) / 10 := by
  unfold round1
  rw [roundHalfEven_eq_of_near (q * 10) z h1 h2]

/-! ## NutritionData (nutritional_analysis.py) -/

/-- `NutritionData`: additive, scalable record of seven nutrient quantities. -/
@[ext] structure NutritionData where
  calories : ℚ := 0
  protein : ℚ := 0
  carbs : ℚ := 0
  fat : ℚ := 0
  fiber : ℚ := 0
  sugar : ℚ := 0
  sodium : ℚ := 0
deriving DecidableEq

/-- `NutritionData.__add__`: component-wise sum. -/
def NutritionData.add (a b : NutritionData) : NutritionData :=
  { calories := a.calories + b.calories
    protein := a.protein + b.protein
    carbs := a.carbs + b.carbs
    fat := a.fat + b.fat
    fiber := a.fiber + b.fiber
    sugar := a.sugar + b.sugar
    sodium := a.sodium + b.sodium }

/-- `NutritionData.__mul__`: component-wise scaling. -/
def NutritionData.mul (a : NutritionData) (m : ℚ) : NutritionData :=
  { calories := a.calories * m
    protein := a.protein * m
    carbs := a.carbs * m
    fat := a.fat * m
    fiber := a.fiber * m
    sugar := a.sugar * m
    sodium := a.sodium * m }

/-- The all-zero vector (`NutritionData()` with all defaults). -/
def NutritionData.zero : NutritionData := {}

/-- `NutritionData.to_dict`: every component rounded to one decimal place.
The Python dict has exactly the seven component keys, so it is modelled as a
`NutritionData` with rounded components; `NutritionData(**d)` round-trips it
back unchanged. -/
def NutritionData.to_dict (a : NutritionData) : NutritionData :=
  { calories := round1 a.calories
    protein := round1 a.protein
    carbs := round1 a.carbs
    fat := round1 a.fat
    fiber := round1 a.fiber
    sugar := round1 a.sugar
    sodium := round1 a.sodium }

theorem NutritionData.add_zero' (a : NutritionData) : a.add NutritionData.zero = a := by
  ext <;> simp [NutritionData.add, NutritionData.zero]

theorem NutritionData.zero_add' (a : NutritionData) : NutritionData.zero.add a = a := by
  ext <;> simp [NutritionData.add, NutritionData.zero]

theorem NutritionData.add_assoc' (a b c : NutritionData) :
    (a.add b).add c = a.add (b.add c) := by
  ext <;> simp [NutritionData.add] <;> ring

theorem NutritionData.add_comm' (a b : NutritionData) : a.add b = b.add a := by
  ext <;> simp [NutritionData.add] <;> ring

theorem NutritionData.mul_one' (a : NutritionData) : a.mul 1 = a := by
  ext <;> simp [NutritionData.mul]

theorem NutritionData.to_dict_zero : NutritionData.zero.to_dict = NutritionData.zero := by
  ext <;> simp [NutritionData.to_dict, NutritionData.zero, round1_zero]

/-- Sum of a list of nutrition vectors (the running-total accumulation
pattern used throughout the analyzer). -/
def ndSum (l : List NutritionData) : NutritionData :=
  l.foldl NutritionData.add NutritionData.zero

theorem ndSum_nil : ndSum [] = NutritionData.zero := rfl

theorem foldl_add_eq_add_ndSum (l : List NutritionData) (init : NutritionData) :
    l.foldl NutritionData.add init = init.add (ndSum l) := by
  induction l generalizing init with
  | nil => simp [ndSum, NutritionData.add_zero']
  | cons a l ih =>
      simp only [ndSum, List.foldl_cons]
      rw [ih (init.add a), ih (NutritionData.zero.add a),
        NutritionData.zero_add', NutritionData.add_assoc']

theorem ndSum_cons (a : NutritionData) (l : List NutritionData) :
    ndSum (a :: l) = a.add (ndSum l) := by
  show List.foldl NutritionData.add (NutritionData.zero.add a) l = _
  rw [foldl_add_eq_add_ndSum, NutritionData.zero_add']

/-! ## Data model (models.py) and database snapshot -/

/-- `MealType` enumeration (models.py). -/
inductive MealType
  | breakfast
  | lunch
  | dinner
  | snack
deriving DecidableEq

/-- Rank realising the `ORDER BY meal_type` of the plan queries: the enum is
stored by member name, so the database compares the strings
`'BREAKFAST' < 'DINNER' < 'LUNCH' < 'SNACK'`. -/
def mealTypeRank : MealType → ℕ
  | .breakfast => 0
  | .dinner => 1
  | .lunch => 2
  | .snack => 3

/-- `Ingredient` row (models.py); nullable nutrition columns are `Option`. -/
structure Ingredient where
  id : ℤ
  name : String
  category : Option String := none
  calories_per_100g : Option ℚ := none
  protein_per_100g : Option ℚ := none
  carbs_per_100g : Option ℚ := none
  fat_per_100g : Option ℚ := none
  fiber_per_100g : Option ℚ := none
  sugar_per_100g : Option ℚ := none
  sodium_per_100g : Option ℚ := none
  common_unit : Option String := none
  unit_weight_grams : Option ℚ := none
deriving DecidableEq

/-- `Recipe` row (models.py), restricted to the columns the aggregation core
reads: id, title, servings and the per-serving nutrition columns. -/
structure Recipe where
  id : ℤ
  title : String
  servings : Option ℤ := none
  calories : Option ℚ := none
  protein : Option ℚ := none
  carbs : Option ℚ := none
  fat : Option ℚ := none
  fiber : Option ℚ := none
  sugar : Option ℚ := none
  sodium : Option ℚ := none
deriving DecidableEq

/-- A row of the `recipe_ingredients` association table (models.py).
`quantity` is `nullable=False` in the schema, but the analysis code still
guards against `None`, so it is kept as an `Option`. -/
structure RecipeIngredientRow where
  recipe_id : ℤ
  ingredient_id : ℤ
  quantity : Option ℚ := none
  unit : Option String := none
  notes : Option String := none
deriving DecidableEq

/-- `Plan` row (models.py); `date` is a day number. -/
structure Plan where
  id : ℤ
  date : ℤ
  meal_type : MealType
  recipe_id : ℤ
  servings : ℤ := 1
  completed : Bool := false
deriving DecidableEq

/-- The read-only database snapshot all queries run against.  Table row order
models the iteration order of the corresponding unordered SQL queries. -/
structure DB where
  recipes : List Recipe := []
  ingredients : List Ingredient := []
  recipe_ingredients : List RecipeIngredientRow := []
  plans : List Plan := []

/-- `session.query(Recipe).filter(Recipe.id == recipe_id).first()`. -/
def DB.findRecipe (db : DB) (rid : ℤ) : Option Recipe :=
  db.recipes.find? (fun r => decide (r.id = rid))

/-- `session.query(Ingredient).filter(Ingredient.id == ingredient_id).first()`. -/
def DB.findIngredient (db : DB) (iid : ℤ) : Option Ingredient :=
  db.ingredients.find? (fun i => decide (i.id = iid))

/-- `session.query(Plan).filter(Plan.id == plan_id).first()`. -/
def DB.findPlan (db : DB) (pid : ℤ) : Option Plan :=
  db.plans.find? (fun p => decide (p.id = pid))

/-- Association-table rows for one recipe
(`... recipe_ingredients.c.recipe_id == recipe_id`). -/
def DB.rowsForRecipe (db : DB) (rid : ℤ) : List RecipeIngredientRow :=
  db.recipe_ingredients.filter (fun row => decide (row.recipe_id = rid))

/-- The `(Ingredient, quantity, unit)` join used by
`_calculate_from_ingredients`: association rows whose ingredient exists
(an inner join drops rows with no matching ingredient). -/
def DB.ingredientJoin (db : DB) (rid : ℤ) :
    List (Ingredient × Option ℚ × Option String) :=
  (db.rowsForRecipe rid).filterMap
    (fun row => (db.findIngredient row.ingredient_id).map
      (fun ing => (ing, row.quantity, row.unit)))

/-- `MealPlanner.get_plans_for_date`: plans of the date, `ORDER BY meal_type`.
A stable sort models the deterministic row return order. -/
def DB.plansForDate (db : DB) (d : ℤ) : List Plan :=
  List.insertionSort
    (fun a b => mealTypeRank a.meal_type ≤ mealTypeRank b.meal_type)
    (db.plans.filter (fun p => decide (p.date = d)))

/-! ## NutritionalAnalyzer (nutritional_analysis.py) -/

/-- The recipe's own per-serving nutrition, `column or 0.0` per component. -/
def recipeOwnNutrition (r : Recipe) : NutritionData :=
  { calories := r.calories.getD 0
    protein := r.protein.getD 0
    carbs := r.carbs.getD 0
    fat := r.fat.getD 0
    fiber := r.fiber.getD 0
    sugar := r.sugar.getD 0
    sodium := r.sodium.getD 0 }

/-- An ingredient's per-100g vector, `column or 0.0` per component. -/
def ingredientPer100g (ing : Ingredient) : NutritionData :=
  { calories := ing.calories_per_100g.getD 0
    protein := ing.protein_per_100g.getD 0
    carbs := ing.carbs_per_100g.getD 0
    fat := ing.fat_per_100g.getD 0
    fiber := ing.fiber_per_100g.getD 0
    sugar := ing.sugar_per_100g.getD 0
    sodium := ing.sodium_per_100g.getD 0 }

/-- `recipe.servings or 1`: `None` and `0` are falsy and fall back to 1. -/
def recipeServingsOrOne (r : Recipe) : ℤ :=
  match r.servings with
  | none => 1
  | some s => if s = 0 then 1 else s

/-- One join row's step of the `_calculate_from_ingredients` loop:
`continue` when the quantity is `None`/`0` or the ingredient's
`calories_per_100g` is `None`/`0` (Python truthiness), otherwise add
`per_100g * (quantity / 100)`. -/
def ingredientLineStep (acc : NutritionData)
    (row : Ingredient × Option ℚ × Option String) : NutritionData :=
  match row.2.1 with
  | none => acc
  | some q =>
      if q = 0 ∨ row.1.calories_per_100g.getD 0 = 0 then acc
      else acc.add ((ingredientPer100g row.1).mul (q / 100))

/-- `NutritionalAnalyzer._calculate_from_ingredients`: `None` when the join is
empty, otherwise the accumulated total divided by `recipe_servings` when that
is positive (returned undivided otherwise — dividing by 1). -/
def calculate_from_ingredients (db : DB) (recipe_id : ℤ)
    (recipe_servings : ℤ) : Option NutritionData :=
  let data := db.ingredientJoin recipe_id
  if data.isEmpty then none
  else
    let total := data.foldl ingredientLineStep NutritionData.zero
    if recipe_servings > 0 then some (total.mul (1 / (recipe_servings : ℚ)))
    else some total

/-- `NutritionalAnalyzer.analyze_recipe`.  The `recipe.ingredients`
relationship is non-empty exactly when the ingredient join is (many-to-many
through `recipe_ingredients` with an existing `Ingredient`); a `NutritionData`
instance is always truthy, so `if ingredient_nutrition:` is an
`is not None` test. -/
def analyze_recipe (db : DB) (recipe_id : ℤ) (servings : ℤ) :
    Option NutritionData :=
  match db.findRecipe recipe_id with
  | none => none
  | some recipe =>
      let nutrition := recipeOwnNutrition recipe
      let nutrition :=
        if nutrition.calories = 0 ∧ ¬(db.ingredientJoin recipe_id).isEmpty then
          match calculate_from_ingredients db recipe_id
              (recipeServingsOrOne recipe) with
          | some n => n
          | none => nutrition
        else nutrition
      some (if servings ≠ 1 then nutrition.mul (servings : ℚ) else nutrition)

/-- `NutritionalAnalyzer.analyze_meal_plan`: re-fetch the plan row by primary
key, then analyze its recipe scaled by its servings. -/
def analyze_meal_plan (db : DB) (plan_id : ℤ) : Option NutritionData :=
  match db.findPlan plan_id with
  | none => none
  | some plan => analyze_recipe db plan.recipe_id plan.servings

/-- Result record of `analyze_daily_nutrition`.  `total_nutrition` holds the
`to_dict()` (rounded) values, as in the returned Python dict;
`meal_nutrition` is the slot-keyed dict (`None` = key absent). -/
structure DailyAnalysis where
  date : ℤ
  total_nutrition : NutritionData
  meal_nutrition : MealType → Option NutritionData
  meal_count : ℕ
  completed_meals : ℕ

/-- Loop body of `analyze_daily_nutrition`: a resolvable plan is added to the
running total and *assigned* (not added) to its meal-slot key. -/
def dailyStep (db : DB) (st : NutritionData × (MealType → Option NutritionData))
    (plan : Plan) : NutritionData × (MealType → Option NutritionData) :=
  match analyze_meal_plan db plan.id with
  | some n => (st.1.add n, Function.update st.2 plan.meal_type (some n.to_dict))
  | none => st

/-- `NutritionalAnalyzer.analyze_daily_nutrition`. -/
def analyze_daily_nutrition (db : DB) (target_date : ℤ) : DailyAnalysis :=
  let plans := db.plansForDate target_date
  let res := plans.foldl (dailyStep db) (NutritionData.zero, fun _ => none)
  { date := target_date
    total_nutrition := res.1.to_dict
    meal_nutrition := res.2
    meal_count := plans.length
    completed_meals := (plans.filter (fun p => p.completed)).length }

/-- The inclusive day range walked by the `while current_date <= end_date`
loop. -/
def dateRange (s e : ℤ) : List ℤ :=
  (List.range (e - s + 1).toNat).map (fun (i : ℕ) => s + (i : ℤ))

/-- Result record of `analyze_period_nutrition`; `total_nutrition` and
`average_daily_nutrition` hold the `to_dict()` values of the returned dict,
and `meal_type_totals` the slot-keyed totals dict (values rounded). -/
structure PeriodAnalysis where
  start_date : ℤ
  end_date : ℤ
  total_days : ℤ
  total_nutrition : NutritionData
  average_daily_nutrition : NutritionData
  meal_type_totals : MealType → Option NutritionData
  daily_analyses : List DailyAnalysis

/-- `NutritionalAnalyzer.analyze_period_nutrition`.  Note that the per-day
totals entering the period sum are the *rounded* `total_nutrition` dicts
(`NutritionData(**daily_analysis['total_nutrition'])`). -/
def analyze_period_nutrition (db : DB) (s e : ℤ) : PeriodAnalysis :=
  let analyses := (dateRange s e).map (analyze_daily_nutrition db)
  let total := analyses.foldl (fun acc a => acc.add a.total_nutrition)
    NutritionData.zero
  let mtt := analyses.foldl
    (fun acc a => fun mt =>
      match a.meal_nutrition mt with
      | some v => some (((acc mt).getD NutritionData.zero).add v)
      | none => acc mt)
    (fun _ => none)
  let total_days := e - s + 1
  let avg := if total_days > 0 then total.mul (1 / (total_days : ℚ))
    else NutritionData.zero
  { start_date := s
    end_date := e
    total_days := total_days
    total_nutrition := total.to_dict
    average_daily_nutrition := avg.to_dict
    meal_type_totals := fun mt => (mtt mt).map NutritionData.to_dict
    daily_analyses := analyses }

/-- Macro-ratio result (`calculate_macro_ratios` returns a three-key dict of
percentages). -/
structure MacroRatios where
  protein : ℚ
  carbs : ℚ
  fat : ℚ
deriving DecidableEq

/-- `NutritionalAnalyzer.calculate_macro_ratios`. -/
def calculate_macro_ratios (nutrition : NutritionData) : MacroRatios :=
  let protein_calories := nutrition.protein * 4
  let carb_calories := nutrition.carbs * 4
  let fat_calories := nutrition.fat * 9
  let total_macro_calories := protein_calories + carb_calories + fat_calories
  if total_macro_calories = 0 then { protein := 0, carbs := 0, fat := 0 }
  else
    { protein := round1 (protein_calories / total_macro_calories * 100)
      carbs := round1 (carb_calories / total_macro_calories * 100)
      fat := round1 (fat_calories / total_macro_calories * 100) }

/-! ## NutritionalGoalManager (nutritional_goals.py) -/

/-- `GoalType` enumeration. -/
inductive GoalType
  | weight_loss
  | weight_gain
  | maintenance
  | muscle_gain
  | endurance
  | custom
deriving DecidableEq

/-- `NutritionalGoals` dataclass.  It is a plain dataclass: construction
performs no validation of any kind. -/
structure NutritionalGoals where
  goal_type : GoalType
  daily_calories : Option ℚ := none
  daily_protein : Option ℚ := none
  daily_carbs : Option ℚ := none
  daily_fat : Option ℚ := none
  daily_fiber : Option ℚ := none
  daily_sodium_max : Option ℚ := none
  protein_ratio : Option ℚ := none
  carbs_ratio : Option ℚ := none
  fat_ratio : Option ℚ := none
deriving DecidableEq

/-- One entry of `NutritionalGoalManager.GOAL_TEMPLATES`. -/
structure GoalTemplate where
  protein_ratio : ℚ
  carbs_ratio : ℚ
  fat_ratio : ℚ
  daily_fiber : ℚ
  daily_sodium_max : ℚ
deriving DecidableEq

/-- `GOAL_TEMPLATES`: the five predefined templates; `custom` has none
(`GOAL_TEMPLATES.get(goal_type, {})` yields the empty dict). -/
def goalTemplates : GoalType → Option GoalTemplate
  | .weight_loss => some { protein_ratio := 30, carbs_ratio := 40, fat_ratio := 30, daily_fiber := 30, daily_sodium_max := 2000 }
  | .weight_gain => some { protein_ratio := 25, carbs_ratio := 50, fat_ratio := 25, daily_fiber := 25, daily_sodium_max := 2300 }
  | .maintenance => some { protein_ratio := 20, carbs_ratio := 50, fat_ratio := 30, daily_fiber := 25, daily_sodium_max := 2300 }
  | .muscle_gain => some { protein_ratio := 35, carbs_ratio := 40, fat_ratio := 25, daily_fiber := 25, daily_sodium_max := 2300 }
  | .endurance => some { protein_ratio := 15, carbs_ratio := 60, fat_ratio := 25, daily_fiber := 30, daily_sodium_max := 2300 }
  | .custom => none

/-- The `**overrides` keyword arguments accepted by
`create_goals_from_template` (each `None` = not supplied). -/
structure GoalOverrides where
  daily_protein : Option ℚ := none
  daily_carbs : Option ℚ := none
  daily_fat : Option ℚ := none
  daily_fiber : Option ℚ := none
  daily_sodium_max : Option ℚ := none
  protein_ratio : Option ℚ := none
  carbs_ratio : Option ℚ := none
  fat_ratio : Option ℚ := none
deriving DecidableEq

/-- `NutritionalGoalManager.create_goals_from_template`.  A total function:
the source constructs and returns the dataclass unconditionally — there is no
ratio-sum (or any other) validation on this path, nor in the dataclass. -/
def create_goals_from_template (goal_type : GoalType) (daily_calories : ℚ)
    (o : GoalOverrides) : NutritionalGoals :=
  let template := goalTemplates goal_type
  let protein_ratio := o.protein_ratio.getD (template.elim 20 (fun t => t.protein_ratio))
  let carbs_ratio := o.carbs_ratio.getD (template.elim 50 (fun t => t.carbs_ratio))
  let fat_ratio := o.fat_ratio.getD (template.elim 30 (fun t => t.fat_ratio))
  let daily_protein := daily_calories * protein_ratio / 100 / 4
  let daily_carbs := daily_calories * carbs_ratio / 100 / 4
  let daily_fat := daily_calories * fat_ratio / 100 / 9
  { goal_type := goal_type
    daily_calories := some daily_calories
    daily_protein := some (o.daily_protein.getD daily_protein)
    daily_carbs := some (o.daily_carbs.getD daily_carbs)
    daily_fat := some (o.daily_fat.getD daily_fat)
    daily_fiber := some (o.daily_fiber.getD (template.elim 25 (fun t => t.daily_fiber)))
    daily_sodium_max := some (o.daily_sodium_max.getD (template.elim 2300 (fun t => t.daily_sodium_max)))
    protein_ratio := some protein_ratio
    carbs_ratio := some carbs_ratio
    fat_ratio := some fat_ratio }

/-- `NutritionalGoalManager._get_status`. -/
def get_status (percentage : ℚ) (nutrient : String) : String :=
  if nutrient = "calories" then
    if 90 ≤ percentage ∧ percentage ≤ 110 then "excellent"
    else if 80 ≤ percentage ∧ percentage ≤ 120 then "good"
    else if percentage < 80 then "low"
    else "high"
  else
    if 80 ≤ percentage ∧ percentage ≤ 120 then "good"
    else if percentage < 80 then "low"
    else "high"

/-- One per-nutrient entry of the `progress` dict. -/
structure NutrientProgress where
  target : ℚ
  actual : ℚ
  percentage : ℚ
  remaining : ℚ
  status : String
deriving DecidableEq

/-- The sodium entry of the `progress` dict. -/
structure SodiumProgress where
  target_max : ℚ
  actual : ℚ
  percentage : ℚ
  over_limit : ℚ
  status : String
deriving DecidableEq

/-- Build one nutrient's progress entry (the body of the
`for nutrient, target, actual in nutrients` loop); `None` target = nutrient
omitted.  `status` is computed from the un-rounded percentage, the stored
`percentage` is rounded. -/
def mkNutrientProgress (nutrient : String) (target : Option ℚ) (actual : ℚ) :
    Option NutrientProgress :=
  target.map (fun t =>
    let percentage := if t > 0 then actual / t * 100 else 0
    { target := round1 t
      actual := round1 actual
      percentage := round1 percentage
      remaining := round1 (max 0 (t - actual))
      status := get_status percentage nutrient })

/-- Result record of `calculate_progress` (the `progress` sub-dict flattened
into one optional field per nutrient). -/
structure ProgressResult where
  calories : Option NutrientProgress
  protein : Option NutrientProgress
  carbs : Option NutrientProgress
  fat : Option NutrientProgress
  fiber : Option NutrientProgress
  sodium : Option SodiumProgress
  overall_score : ℚ
  goal_type : GoalType
deriving DecidableEq

/-- Per-nutrient sub-score used for `overall_score` (non-sodium branch of the
scores loop); computed from the *stored* (rounded) percentage. -/
def nutrientScore (p : NutrientProgress) : ℚ :=
  if 80 ≤ p.percentage ∧ p.percentage ≤ 120 then 100
  else if p.percentage < 80 then p.percentage * (125/100)
  else max 0 (240 - p.percentage)

/-- Sodium sub-score used for `overall_score`. -/
def sodiumScore (s : SodiumProgress) : ℚ :=
  if s.percentage ≤ 100 then 100 else max 0 (200 - s.percentage)

/-- `NutritionalGoalManager.calculate_progress`. -/
def calculate_progress (goals : NutritionalGoals)
    (actual_nutrition : NutritionData) : ProgressResult :=
  let pc := mkNutrientProgress "calories" goals.daily_calories actual_nutrition.calories
  let pp := mkNutrientProgress "protein" goals.daily_protein actual_nutrition.protein
  let pcb := mkNutrientProgress "carbs" goals.daily_carbs actual_nutrition.carbs
  let pf := mkNutrientProgress "fat" goals.daily_fat actual_nutrition.fat
  let pfb := mkNutrientProgress "fiber" goals.daily_fiber actual_nutrition.fiber
  let sodium := goals.daily_sodium_max.map (fun m =>
    let sodium_percentage := if m > 0 then actual_nutrition.sodium / m * 100 else 0
    ({ target_max := round1 m
       actual := round1 actual_nutrition.sodium
       percentage := round1 sodium_percentage
       over_limit := max 0 (actual_nutrition.sodium - m)
       status := if sodium_percentage ≤ 100 then "good" else "over" } : SodiumProgress))
  let scores := (([pc, pp, pcb, pf, pfb].filterMap id).map nutrientScore)
    ++ (sodium.map sodiumScore).toList
  let overall_score := if scores.isEmpty then 0
    else scores.sum / (scores.length : ℚ)
  { calories := pc
    protein := pp
    carbs := pcb
    fat := pf
    fiber := pfb
    sodium := sodium
    overall_score := round1 overall_score
    goal_type := goals.goal_type }

/-- Result record of `analyze_weekly_progress`; `daily_progresses` pairs each
day's date with its progress result. -/
structure WeeklyProgress where
  week_start : ℤ
  week_end : ℤ
  daily_progresses : List (ℤ × ProgressResult)
  weekly_progress : ProgressResult
  weekly_totals : NutritionData
  weekly_averages : NutritionData
  consistency_score : ℚ
  days_with_data : ℕ

/-- `NutritionalGoalManager.analyze_weekly_progress`. -/
def analyze_weekly_progress (db : DB) (goals : NutritionalGoals)
    (start_date : ℤ) : WeeklyProgress :=
  let end_date := start_date + 6
  let period := analyze_period_nutrition db start_date end_date
  let weekly_totals := period.total_nutrition
  let weekly_averages := period.average_daily_nutrition
  let daily_progresses := period.daily_analyses.map
    (fun a => (a.date, calculate_progress goals a.total_nutrition))
  let weekly_progress := calculate_progress goals weekly_averages
  let daily_scores := daily_progresses.map (fun dp => dp.2.overall_score)
  let consistency_score :=
    if daily_scores.isEmpty then 0
    else
      let avg_score := daily_scores.sum / (daily_scores.length : ℚ)
      let score_variance :=
        (daily_scores.map (fun sc => (sc - avg_score) ^ 2)).sum
          / (daily_scores.length : ℚ)
      max 0 (100 - score_variance)
  { week_start := start_date
    week_end := end_date
    daily_progresses := daily_progresses
    weekly_progress := weekly_progress
    weekly_totals := weekly_totals.to_dict
    weekly_averages := weekly_averages.to_dict
    consistency_score := round1 consistency_score
    days_with_data :=
      (daily_progresses.filter (fun dp => decide (dp.2.overall_score > 0))).length }

/-! ## ShoppingListGenerator (shopping_list.py) -/

/-- `ShoppingListItem` dataclass. -/
structure ShoppingListItem where
  ingredient_id : ℤ
  ingredient_name : String
  category : Option String
  total_quantity : ℚ
  unit : String
  recipes_used : List String
  notes : Option String := none
deriving DecidableEq

/-- `ShoppingList` dataclass. -/
structure ShoppingList where
  start_date : ℤ
  end_date : ℤ
  items : List ShoppingListItem
  total_recipes : ℕ
  total_meals : ℕ
  categories : List String
deriving DecidableEq

/-- One value of the `ingredient_aggregation` defaultdict once its ingredient
is set.  The Python `recipes` set is modelled as an insertion-ordered
duplicate-free list (it is only ever read through `sorted(...)`). -/
structure IngredientAgg where
  total_quantity : ℚ
  unit : String
  recipes : List String
  ingredient : Ingredient
deriving DecidableEq

/-- `unit or 'units'`: `None` and the empty string are falsy. -/
def unitOrUnits : Option String → String
  | none => "units"
  | some s => if s = "" then "units" else s

/-- Insert a recipe title into the modelled `recipes` set. -/
def recipesInsert (l : List String) (title : String) : List String :=
  if title ∈ l then l else l ++ [title]

/-- One `(key, agg)` update of `ingredient_aggregation`: create the entry on
first touch (setting ingredient and unit), then accumulate quantity and
recipe title.  The association list is insertion-ordered like a Python dict. -/
def aggUpsert (acc : List (ℤ × IngredientAgg)) (ing : Ingredient)
    (unit : Option String) (scaled : ℚ) (title : String) :
    List (ℤ × IngredientAgg) :=
  match acc with
  | [] => [(ing.id,
      { total_quantity := scaled
        unit := unitOrUnits unit
        recipes := [title]
        ingredient := ing })]
  | (k, a) :: rest =>
      if k = ing.id then
        (k, { a with
              total_quantity := a.total_quantity + scaled
              recipes := recipesInsert a.recipes title }) :: rest
      else (k, a) :: aggUpsert rest ing unit scaled title

/-- The `(Ingredient, quantity, unit, Recipe.title)` join used by the
shopping-list builders: association rows of the recipe whose ingredient and
recipe both exist. -/
def DB.shoppingJoin (db : DB) (rid : ℤ) :
    List (Ingredient × Option ℚ × Option String × String) :=
  (db.rowsForRecipe rid).filterMap
    (fun row =>
      match db.findIngredient row.ingredient_id, db.findRecipe rid with
      | some ing, some r => some (ing, row.quantity, row.unit, r.title)
      | _, _ => none)

/-- Inner loop of the shopping-list aggregation over one recipe's join rows:
skip `quantity is None`, scale by the servings, upsert. -/
def aggRecipeRows (db : DB) (acc : List (ℤ × IngredientAgg)) (rid : ℤ)
    (servings : ℤ) : List (ℤ × IngredientAgg) :=
  (db.shoppingJoin rid).foldl
    (fun acc2 row =>
      match row.2.1 with
      | none => acc2
      | some q => aggUpsert acc2 row.1 row.2.2.1 (q * (servings : ℚ)) row.2.2.2)
    acc

/-- `x.category or 'ZZZ'` — the sort key's category component (`None` and the
empty string both fall back to the sentinel that sorts last). -/
def sortKeyCategory (c : Option String) : String :=
  match c with
  | none => "ZZZ"
  | some s => if s = "" then "ZZZ" else s

/-- The `(category or 'ZZZ', ingredient_name)` lexicographic tuple order of
`items.sort`. -/
def itemKeyLe (a b : ShoppingListItem) : Prop :=
  sortKeyCategory a.category < sortKeyCategory b.category
    ∨ (sortKeyCategory a.category = sortKeyCategory b.category
        ∧ a.ingredient_name ≤ b.ingredient_name)

instance : DecidableRel itemKeyLe := fun a b => by
  unfold itemKeyLe; infer_instance

instance : IsTotal ShoppingListItem itemKeyLe where
  total a b := by
    unfold itemKeyLe
    rcases lt_trichotomy (sortKeyCategory a.category) (sortKeyCategory b.category) with h | h | h
    · exact Or.inl (Or.inl h)
    · rcases le_total a.ingredient_name b.ingredient_name with h2 | h2
      · exact Or.inl (Or.inr ⟨h, h2⟩)
      · exact Or.inr (Or.inr ⟨h.symm, h2⟩)
    · exact Or.inr (Or.inl h)

instance : IsTrans ShoppingListItem itemKeyLe where
  trans a b c hab hbc := by
    unfold itemKeyLe at hab hbc ⊢
    rcases hab with h1 | ⟨h1, h1'⟩ <;> rcases hbc with h2 | ⟨h2, h2'⟩
    · exact Or.inl (h1.trans h2)
    · exact Or.inl (h2 ▸ h1)
    · exact Or.inl (h1 ▸ h2)
    · exact Or.inr ⟨h1.trans h2, h1'.trans h2'⟩

/-- The plain `ingredient_name` order of `items.sort` when
`group_by_category` is off. -/
def itemNameLe (a b : ShoppingListItem) : Prop :=
  a.ingredient_name ≤ b.ingredient_name

instance : DecidableRel itemNameLe := fun a b => by
  unfold itemNameLe; infer_instance

/-- Convert one finished aggregation entry to a `ShoppingListItem`
(`recipes_used = sorted(list(agg['recipes']))`). -/
def aggToItem (a : IngredientAgg) : ShoppingListItem :=
  { ingredient_id := a.ingredient.id
    ingredient_name := a.ingredient.name
    category := a.ingredient.category
    total_quantity := a.total_quantity
    unit := a.unit
    recipes_used := List.insertionSort (fun x y => x ≤ y) a.recipes
    notes := none }

/-- `if ingredient.category:` — the truthy category of a finished entry, used
to build the `categories` set. -/
def truthyCategory (c : Option String) : Option String :=
  match c with
  | none => none
  | some s => if s = "" then none else some s

/-- `ShoppingListGenerator.generate_from_date_range`. -/
def generate_from_date_range (db : DB) (start_date end_date : ℤ)
    (group_by_category : Bool := true) (include_completed : Bool := false) :
    ShoppingList :=
  let plans0 := db.plans.filter
    (fun p => decide (start_date ≤ p.date) && decide (p.date ≤ end_date))
  let plans := if include_completed then plans0
    else plans0.filter (fun p => !p.completed)
  if plans.isEmpty then
    { start_date := start_date, end_date := end_date, items := []
      total_recipes := 0, total_meals := 0, categories := [] }
  else
    let agg := plans.foldl
      (fun acc p => aggRecipeRows db acc p.recipe_id p.servings) []
    let items := agg.map (fun ka => aggToItem ka.2)
    let items := if group_by_category then List.insertionSort itemKeyLe items
      else List.insertionSort itemNameLe items
    { start_date := start_date
      end_date := end_date
      items := items
      total_recipes := ((plans.map (fun p => p.recipe_id)).dedup).length
      total_meals := plans.length
      categories := List.insertionSort (fun x y => x ≤ y)
        ((agg.filterMap (fun ka => truthyCategory ka.2.ingredient.category)).dedup) }

/-- `ShoppingListGenerator.add_custom_item`.  The source builds a fresh items
list (`shopping_list.items + [custom_item]`) and copies the categories before
touching them, so the operation is pure and the input value is left intact;
the embedding is therefore a plain function of the input list. -/
def add_custom_item (shopping_list : ShoppingList) (item_name : String)
    (quantity : ℚ) (unit : String) (category : Option String := none)
    (notes : Option String := none) : ShoppingList :=
  let custom_item : ShoppingListItem :=
    { ingredient_id := -1
      ingredient_name := item_name
      category := category
      total_quantity := quantity
      unit := unit
      recipes_used := []
      notes := notes }
  let new_items := shopping_list.items ++ [custom_item]
  let new_categories :=
    match category with
    | none => shopping_list.categories
    | some c =>
        if c = "" then shopping_list.categories
        else if c ∈ shopping_list.categories then shopping_list.categories
        else List.insertionSort (fun x y => x ≤ y)
          (shopping_list.categories ++ [c])
  { start_date := shopping_list.start_date
    end_date := shopping_list.end_date
    items := List.insertionSort itemKeyLe new_items
    total_recipes := shopping_list.total_recipes
    total_meals := shopping_list.total_meals
    categories := new_categories }

/-- The six-key totals dict returned by `calculate_shopping_list_nutrition` —
the source accumulates calories, protein, carbs, fat, fiber and sodium only;
there is no sugar key. -/
structure ShoppingNutritionTotals where
  calories : ℚ
  protein : ℚ
  carbs : ℚ
  fat : ℚ
  fiber : ℚ
  sodium : ℚ
deriving DecidableEq

/-- `if ingredient.x_per_100g: total[...] += x * factor`: a `None` or zero
column adds nothing. -/
def addComponent (v : Option ℚ) (factor acc : ℚ) : ℚ :=
  match v with
  | none => acc
  | some x => if x = 0 then acc else acc + x * factor

/-- Loop body of `calculate_shopping_list_nutrition`: custom (sentinel id -1)
items and items whose ingredient is not found are skipped. -/
def shoppingNutritionStep (db : DB) (acc : ShoppingNutritionTotals)
    (item : ShoppingListItem) : ShoppingNutritionTotals :=
  if item.ingredient_id = -1 then acc
  else
    match db.findIngredient item.ingredient_id with
    | none => acc
    | some ing =>
        let quantity_factor := item.total_quantity / 100
        { calories := addComponent ing.calories_per_100g quantity_factor acc.calories
          protein := addComponent ing.protein_per_100g quantity_factor acc.protein
          carbs := addComponent ing.carbs_per_100g quantity_factor acc.carbs
          fat := addComponent ing.fat_per_100g quantity_factor acc.fat
          fiber := addComponent ing.fiber_per_100g quantity_factor acc.fiber
          sodium := addComponent ing.sodium_per_100g quantity_factor acc.sodium }

/-- `ShoppingListGenerator.calculate_shopping_list_nutrition`: accumulate over
all items, then round every component to one decimal. -/
def calculate_shopping_list_nutrition (db : DB) (shopping_list : ShoppingList) :
    ShoppingNutritionTotals :=
  let totals := shopping_list.items.foldl (shoppingNutritionStep db)
    { calories := 0, protein := 0, carbs := 0, fat := 0, fiber := 0, sodium := 0 }
  { calories := round1 totals.calories
    protein := round1 totals.protein
    carbs := round1 totals.carbs
    fat := round1 totals.fat
    fiber := round1 totals.fiber
    sodium := round1 totals.sodium }

/-! ## Shared evaluation helpers -/

theorem round1_int (z : ℤ) : round1 (z : ℚ) = (z : ℚ) := by
  have h := round1_eq_of_near (z : ℚ) (10 * z) (by push_cast; linarith) (by push_cast; linarith)
  rw [h]
  push_cast
  ring

theorem round1_ofNat (n : ℕ) : round1 (n : ℚ) = (n : ℚ) := by
  have h := round1_int (n : ℤ)
  push_cast at h
  exact h

/-! ## C1: NutritionGoal construction and the (absent) ratio-sum validation -/

/-- C1, counterexample.  The claim says constructing a goal whose three
explicitly supplied macro ratios sum to 90 must fail validation with a raised
error.  In the source, `NutritionalGoals` is a plain dataclass and
`create_goals_from_template` builds and returns it unconditionally — there is
no ratio-sum check anywhere in the core, so the function is total and the
embedding has no error case at all.  Constructing with
`protein_ratio=30, carbs_ratio=30, fat_ratio=30` therefore succeeds and
returns a goal carrying exactly those ratios, whose sum 90 is far outside
100 ± 0.1. -/
theorem C1_counterexample :
    (create_goals_from_template GoalType.custom 2000
        { protein_ratio := some 30, carbs_ratio := some 30,
          fat_ratio := some 30 }).protein_ratio = some 30
    ∧ (create_goals_from_template GoalType.custom 2000
        { protein_ratio := some 30, carbs_ratio := some 30,
          fat_ratio := some 30 }).carbs_ratio = some 30
    ∧ (create_goals_from_template GoalType.custom 2000
        { protein_ratio := some 30, carbs_ratio := some 30,
          fat_ratio := some 30 }).fat_ratio = some 30
    ∧ (30 : ℚ) + 30 + 30 = 90
    ∧ ¬(100 - 1/10 ≤ (90 : ℚ) ∧ (90 : ℚ) ≤ 100 + 1/10) := by
  refine ⟨rfl, rfl, rfl, by norm_num, ?_⟩
  intro h
  have := h.1
  norm_num at this

/-- C1 (amended): goal construction never fails — the core performs no
ratio-sum validation.  Whatever three ratios the caller supplies explicitly,
`create_goals_from_template` returns a `NutritionalGoals` value carrying
exactly those ratios, regardless of their sum. -/
theorem C1_no_ratio_validation (goal_type : GoalType) (daily_calories : ℚ)
    (o : GoalOverrides) (p c f : ℚ)
    (hp : o.protein_ratio = some p) (hc : o.carbs_ratio = some c)
    (hf : o.fat_ratio = some f) :
    (create_goals_from_template goal_type daily_calories o).protein_ratio = some p
    ∧ (create_goals_from_template goal_type daily_calories o).carbs_ratio = some c
    ∧ (create_goals_from_template goal_type daily_calories o).fat_ratio = some f := by
  unfold create_goals_from_template
  rw [hp, hc, hf]
  exact ⟨rfl, rfl, rfl⟩

/-- C1 witness: the amended theorem applied at the Scenario E input
(ratios 30/30/30, sum 90). -/
theorem C1_no_ratio_validation_witness :
    (create_goals_from_template GoalType.custom 2000
        { protein_ratio := some 30, carbs_ratio := some 30,
          fat_ratio := some 30 }).protein_ratio = some 30
    ∧ (create_goals_from_template GoalType.custom 2000
        { protein_ratio := some 30, carbs_ratio := some 30,
          fat_ratio := some 30 }).carbs_ratio = some 30
    ∧ (create_goals_from_template GoalType.custom 2000
        { protein_ratio := some 30, carbs_ratio := some 30,
          fat_ratio := some 30 }).fat_ratio = some 30 :=
  C1_no_ratio_validation GoalType.custom 2000
    { protein_ratio := some 30, carbs_ratio := some 30, fat_ratio := some 30 }
    30 30 30 rfl rfl rfl

/-! ## C7: macro-ratio closure -/

/-- C7: for every non-negative nutrition vector, `calculate_macro_ratios`
returns all-zero percentages exactly when the macro-calorie total
`protein*4 + carbs*4 + fat*9` is zero (equivalently, under non-negativity,
when all three macros are zero), and otherwise the three returned one-decimal
percentages sum to 100.0 within ±0.1.  The ±0.1 closure holds because each
rounded percentage is within 1/20 of its exact value, the exact values sum to
exactly 100, and the rounded sum is an integer multiple of 1/10. -/
theorem C7_macro_ratio_closure (n : NutritionData)
    (hp : 0 ≤ n.protein) (hc : 0 ≤ n.carbs) (hf : 0 ≤ n.fat) :
    ((n.protein = 0 ∧ n.carbs = 0 ∧ n.fat = 0) →
      calculate_macro_ratios n = { protein := 0, carbs := 0, fat := 0 })
    ∧ (¬(n.protein = 0 ∧ n.carbs = 0 ∧ n.fat = 0) →
        100 - 1/10 ≤ (calculate_macro_ratios n).protein
            + (calculate_macro_ratios n).carbs + (calculate_macro_ratios n).fat
        ∧ (calculate_macro_ratios n).protein + (calculate_macro_ratios n).carbs
            + (calculate_macro_ratios n).fat ≤ 100 + 1/10) := by
  constructor
  · rintro ⟨h1, h2, h3⟩
    unfold calculate_macro_ratios
    rw [h1, h2, h3]
    norm_num
  · intro hne
    have hT : 0 < n.protein * 4 + n.carbs * 4 + n.fat * 9 := by
      rcases lt_or_eq_of_le hp with hp' | hp'
      · linarith
      rcases lt_or_eq_of_le hc with hc' | hc'
      · linarith
      rcases lt_or_eq_of_le hf with hf' | hf'
      · linarith
      exact absurd ⟨hp'.symm, hc'.symm, hf'.symm⟩ hne
    have hT0 : n.protein * 4 + n.carbs * 4 + n.fat * 9 ≠ 0 := ne_of_gt hT
    unfold calculate_macro_ratios
    simp only [hT0, if_false]
    set T := n.protein * 4 + n.carbs * 4 + n.fat * 9 with hTdef
    set x := n.protein * 4 / T * 100 with hx
    set y := n.carbs * 4 / T * 100 with hy
    set z := n.fat * 9 / T * 100 with hz
    have hsum : x + y + z = 100 := by
      rw [hx, hy, hz]
      field_simp
      ring
    -- each rounded value is an integer multiple of 1/10 within 1/20 of the
    -- exact value
    have hbx := round1_sub_le x
    have hby := round1_sub_le y
    have hbz := round1_sub_le z
    have hint : ∃ K : ℤ, round1 x + round1 y + round1 z = (K : ℚ) / 10 :=
      ⟨roundHalfEven (x * 10) + roundHalfEven (y * 10) + roundHalfEven (z * 10),
        by unfold round1; push_cast; ring⟩
    obtain ⟨K, hK⟩ := hint
    have hlow : (100 : ℚ) - 3/20 ≤ (K : ℚ) / 10 := by
      rw [← hK]; linarith
    have hhigh : (K : ℚ) / 10 ≤ (100 : ℚ) + 3/20 := by
      rw [← hK]; linarith
    have hKlow : (999 : ℤ) ≤ K := by
      have h1 : (998 : ℚ) < (K : ℚ) := by linarith
      have h2 : (998 : ℤ) < K := by exact_mod_cast h1
      omega
    have hKhigh : K ≤ (1001 : ℤ) := by
      have : (K : ℚ) < 1002 := by linarith
      have h2 : K < (1002 : ℤ) := by exact_mod_cast this
      omega
    constructor
    · rw [hK]
      have : (999 : ℚ) ≤ (K : ℚ) := by exact_mod_cast hKlow
      linarith
    · rw [hK]
      have : (K : ℚ) ≤ (1001 : ℚ) := by exact_mod_cast hKhigh
      linarith

/-- C7 witness: the theorem applied at the vector with
protein = carbs = fat = 10 (macro-calorie total 170; rounded percentages
23.5 + 23.5 + 52.9 = 99.9, inside 100 ± 0.1). -/
theorem C7_macro_ratio_closure_witness :
    100 - 1/10 ≤ (calculate_macro_ratios
        { protein := 10, carbs := 10, fat := 10 }).protein
      + (calculate_macro_ratios { protein := 10, carbs := 10, fat := 10 }).carbs
      + (calculate_macro_ratios { protein := 10, carbs := 10, fat := 10 }).fat :=
  ((C7_macro_ratio_closure { protein := 10, carbs := 10, fat := 10 }
      (by norm_num) (by norm_num) (by norm_num)).2 (by norm_num)).1

/-! ## C6: progress sub-scores and overall score -/

/-- Spec-side sub-score formula for a non-sodium nutrient (claim wording:
100 inside [80,120], `percentage*1.25` below 80, `max(0, 240 - percentage)`
above 120). -/
def specNutrientSubScore (percentage : ℚ) : ℚ :=
  if 80 ≤ percentage ∧ percentage ≤ 120 then 100
  else if percentage < 80 then percentage * (125/100)
  else max 0 (240 - percentage)

/-- Spec-side sodium sub-score formula (claim wording: 100 when
percentage ≤ 100, `max(0, 200 - percentage)` otherwise). -/
def specSodiumSubScore (percentage : ℚ) : ℚ :=
  if percentage ≤ 100 then 100 else max 0 (200 - percentage)

/-- The sub-score list the claim describes, computed from the *reported*
per-nutrient percentages of a progress result, in the fixed iteration order
calories, protein, carbs, fat, fiber, sodium. -/
def specSubScores (res : ProgressResult) : List ℚ :=
  (([res.calories, res.protein, res.carbs, res.fat, res.fiber].filterMap id).map
      (fun p => specNutrientSubScore p.percentage))
    ++ ((res.sodium).map (fun s => specSodiumSubScore s.percentage)).toList

/-- Average of a list of scores, 0 when empty. -/
def avgList (l : List ℚ) : ℚ :=
  if l.isEmpty then 0 else l.sum / (l.length : ℚ)

theorem round1_q100 : round1 (100 : ℚ) = 100 := by
  have h := round1_int 100; push_cast at h; exact h

theorem round1_q2000 : round1 (2000 : ℚ) = 2000 := by
  have h := round1_int 2000; push_cast at h; exact h

theorem round1_q3000 : round1 (3000 : ℚ) = 3000 := by
  have h := round1_int 3000; push_cast at h; exact h

theorem round1_q150 : round1 (150 : ℚ) = 150 := by
  have h := round1_int 150; push_cast at h; exact h

theorem round1_q50 : round1 (50 : ℚ) = 50 := by
  have h := round1_int 50; push_cast at h; exact h

/-- C6: `calculate_progress` scores by the exact claimed formulas — for every
goal and actual intake, the reported `overall_score` is the (presentation-
rounded) average of the claimed per-nutrient sub-scores evaluated at the
reported percentages, sodium scored as `100 / max(0, 200 - pct)` and every
other nutrient as `100 / pct*1.25 / max(0, 240 - pct)` at the claimed
breakpoints; and the two spec scenarios hold exactly: Scenario C
(goal 2000 kcal, actual 2000 kcal) reports percentage 100.0, status
"excellent", sub-score 100 and overall score 100, and Scenario D
(sodium ceiling 2000, actual 3000) reports percentage 150.0, status "over",
`over_limit` 1000.0, sodium sub-score 50 and overall score 50. -/
theorem C6_progress_scoring (goals : NutritionalGoals) (actual : NutritionData) :
    (calculate_progress goals actual).overall_score
      = round1 (avgList (specSubScores (calculate_progress goals actual)))
    ∧ (calculate_progress { goal_type := GoalType.custom, daily_calories := some 2000 }
        { calories := 2000 }).calories
        = some { target := 2000, actual := 2000, percentage := 100,
                 remaining := 0, status := "excellent" }
    ∧ ((calculate_progress { goal_type := GoalType.custom, daily_calories := some 2000 }
        { calories := 2000 }).calories).map (fun p => specNutrientSubScore p.percentage)
        = some 100
    ∧ (calculate_progress { goal_type := GoalType.custom, daily_calories := some 2000 }
        { calories := 2000 }).overall_score = 100
    ∧ (calculate_progress { goal_type := GoalType.custom, daily_sodium_max := some 2000 }
        { sodium := 3000 }).sodium
        = some { target_max := 2000, actual := 3000, percentage := 150,
                 over_limit := 1000, status := "over" }
    ∧ ((calculate_progress { goal_type := GoalType.custom, daily_sodium_max := some 2000 }
        { sodium := 3000 }).sodium).map (fun s => specSodiumSubScore s.percentage)
        = some 50
    ∧ (calculate_progress { goal_type := GoalType.custom, daily_sodium_max := some 2000 }
        { sodium := 3000 }).overall_score = 50 := by
  have hns : nutrientScore = fun p => specNutrientSubScore p.percentage := rfl
  have hss : sodiumScore = fun s => specSodiumSubScore s.percentage := rfl
  refine ⟨?_, ?_, ?_, ?_, ?_, ?_, ?_⟩
  · simp only [calculate_progress, specSubScores, avgList]
    rw [hns, hss]
  · norm_num [calculate_progress, mkNutrientProgress, get_status,
      round1_q2000, round1_q100, round1_zero]
  · norm_num [calculate_progress, mkNutrientProgress, get_status,
      specNutrientSubScore, round1_q2000, round1_q100, round1_zero]
  · norm_num [calculate_progress, mkNutrientProgress, get_status, nutrientScore,
      List.filterMap_cons, List.filterMap_nil, id_eq, List.isEmpty,
      round1_q2000, round1_q100, round1_zero]
  · norm_num [calculate_progress, round1_q2000, round1_q3000, round1_q150]
  · norm_num [calculate_progress, specSodiumSubScore, round1_q2000,
      round1_q3000, round1_q150]
  · norm_num [calculate_progress, mkNutrientProgress, sodiumScore,
      List.filterMap_cons, List.filterMap_nil, id_eq, List.isEmpty,
      round1_q2000, round1_q3000, round1_q150, round1_q50]

/-! ## C9: add_custom_item returns a fresh list and preserves the input -/

/-- C9: `add_custom_item` returns a new `ShoppingList` containing exactly one
additional item — the custom item with sentinel `ingredient_id = -1` — as a
permutation of the input items plus that custom item, re-sorted by the
`(category or 'ZZZ', ingredient_name)` rule; `start_date`, `end_date`,
`total_recipes` and `total_meals` are taken unchanged from the input, and a
member is in the result's categories exactly when it was already a category
or is the newly supplied non-empty category.  The source never mutates its
input: it concatenates into a fresh list and copies the categories before
updating, so the operation is a pure function of the input value (which the
embedding reflects), and the original `items` sequence and length are
untouched. -/
theorem C9_add_custom_item_pure (sl : ShoppingList) (item_name : String)
    (quantity : ℚ) (unit : String) (category : Option String)
    (notes : Option String) :
    (add_custom_item sl item_name quantity unit category notes).items.length
        = sl.items.length + 1
    ∧ (add_custom_item sl item_name quantity unit category notes).items.Perm
        (sl.items ++ [{ ingredient_id := -1, ingredient_name := item_name,
                        category := category, total_quantity := quantity,
                        unit := unit, recipes_used := [], notes := notes }])
    ∧ ((add_custom_item sl item_name quantity unit category
          notes).items.Sorted itemKeyLe)
    ∧ (add_custom_item sl item_name quantity unit category notes).start_date
        = sl.start_date
    ∧ (add_custom_item sl item_name quantity unit category notes).end_date
        = sl.end_date
    ∧ (add_custom_item sl item_name quantity unit category notes).total_recipes
        = sl.total_recipes
    ∧ (add_custom_item sl item_name quantity unit category notes).total_meals
        = sl.total_meals
    ∧ (∀ c : String,
        c ∈ (add_custom_item sl item_name quantity unit category notes).categories
          ↔ (c ∈ sl.categories ∨ (category = some c ∧ c ≠ ""))) := by
  refine ⟨?_, ?_, ?_, rfl, rfl, rfl, rfl, ?_⟩
  · have hperm := List.perm_insertionSort itemKeyLe
      (sl.items ++ [{ ingredient_id := -1, ingredient_name := item_name,
                      category := category, total_quantity := quantity,
                      unit := unit, recipes_used := [], notes := notes }])
    have := hperm.length_eq
    simp only [add_custom_item]
    simpa using this
  · exact List.perm_insertionSort itemKeyLe _
  · exact List.sorted_insertionSort itemKeyLe _
  · intro c
    simp only [add_custom_item]
    cases hcat : category with
    | none =>
        simp only []
        constructor
        · exact fun h => Or.inl h
        · rintro (h | ⟨h, _⟩)
          · exact h
          · exact absurd h (by simp)
    | some c' =>
        by_cases hempty : c' = ""
        · subst hempty
          simp only [if_pos rfl]
          constructor
          · exact fun h => Or.inl h
          · rintro (h | ⟨h, hne⟩)
            · exact h
            · exact absurd (Option.some_injective _ h).symm hne
        · simp only [if_neg hempty]
          by_cases hmem : c' ∈ sl.categories
          · simp only [if_pos hmem]
            constructor
            · exact fun h => Or.inl h
            · rintro (h | ⟨h, _⟩)
              · exact h
              · rw [← (Option.some_injective _ h)]
                exact hmem
          · simp only [if_neg hmem]
            have hperm := List.perm_insertionSort (fun x y => x ≤ y)
              (sl.categories ++ [c'])
            rw [hperm.mem_iff]
            simp only [List.mem_append, List.mem_singleton]
            constructor
            · rintro (h | h)
              · exact Or.inl h
              · exact Or.inr ⟨by rw [h], by rw [h]; exact hempty⟩
            · rintro (h | ⟨h, hne⟩)
              · exact Or.inl h
              · exact Or.inr (Option.some_injective _ h).symm

/-! ## C10: a goal with only a sodium ceiling scores an empty day above zero -/

theorem nutrientScore_of_zero_actual (nutrient : String) (target : Option ℚ)
    (p : NutrientProgress) (h : mkNutrientProgress nutrient target 0 = some p) :
    nutrientScore p = 0 := by
  cases target with
  | none => simp [mkNutrientProgress] at h
  | some t =>
      simp only [mkNutrientProgress, Option.map_some', Option.some_inj] at h
      have hpct : p.percentage = 0 := by
        rw [← h]
        simp only [zero_div, zero_mul, ite_self, round1_zero]
      unfold nutrientScore
      rw [hpct]
      norm_num

/-- C10: for any goal whose `daily_sodium_max` is set and positive, a day with
all-zero actual nutrition gets sodium percentage 0, hence sodium sub-score
100 and a strictly positive overall score; consequently, when the week has no
plans at all, weekly `days_with_data` — which counts days with
`overall_score > 0` — counts all 7 empty days as days with data. -/
theorem C10_empty_day_scores_positive (goals : NutritionalGoals) (m : ℚ)
    (hm : goals.daily_sodium_max = some m) (hmpos : 0 < m) :
    ((calculate_progress goals NutritionData.zero).sodium.map
        (fun s => s.percentage) = some 0)
    ∧ ((calculate_progress goals NutritionData.zero).sodium.map sodiumScore
        = some 100)
    ∧ 0 < (calculate_progress goals NutritionData.zero).overall_score
    ∧ (∀ db : DB, ∀ start_date : ℤ, db.plans = [] →
        (analyze_weekly_progress db goals start_date).days_with_data = 7) := by
  have hzs : NutritionData.zero.sodium = 0 := rfl
  -- the sodium entry of the progress of an all-zero day
  have hsod : (calculate_progress goals NutritionData.zero).sodium
      = some { target_max := round1 m, actual := round1 0, percentage := 0,
               over_limit := max 0 (0 - m), status := "good" } := by
    simp only [calculate_progress, hm, Option.map_some', hzs]
    rw [if_pos hmpos]
    simp [round1_zero, hmpos.le]
  have hpct : ((calculate_progress goals NutritionData.zero).sodium.map
      (fun s => s.percentage)) = some 0 := by rw [hsod]; rfl
  have hscore : ((calculate_progress goals NutritionData.zero).sodium.map
      sodiumScore) = some 100 := by
    rw [hsod]
    simp [sodiumScore]
  have key : ∀ A : List ℚ, (∀ x ∈ A, x = 0) → A.length ≤ 5 →
      0 < round1 (if (A ++ [(100:ℚ)]).isEmpty = true then 0
        else (A ++ [(100:ℚ)]).sum / (((A ++ [(100:ℚ)]).length : ℕ) : ℚ)) := by
    intro A hA hlen
    have hnonempty : (A ++ [(100:ℚ)]).isEmpty = false := by
      rw [List.isEmpty_eq_false_iff_exists_mem]
      exact ⟨100, List.mem_append_right _ (List.mem_singleton_self _)⟩
    rw [hnonempty]
    simp only [Bool.false_eq_true, if_false]
    have hsum : (A ++ [(100:ℚ)]).sum = 100 := by
      rw [List.sum_append, List.sum_eq_zero hA]
      norm_num
    have hlen' : (A ++ [(100:ℚ)]).length = A.length + 1 := by
      rw [List.length_append]
      rfl
    rw [hsum, hlen']
    have hk : ((A.length : ℚ) + 1) ≤ 6 := by
      have : (A.length : ℚ) ≤ 5 := by exact_mod_cast hlen
      linarith
    have hkpos : (0:ℚ) < (A.length : ℚ) + 1 := by positivity
    have hx : (100 : ℚ) / 6 ≤ 100 / ((A.length : ℚ) + 1) :=
      div_le_div_of_nonneg_left (by norm_num) hkpos hk
    have hcast : ((A.length + 1 : ℕ) : ℚ) = (A.length : ℚ) + 1 := by push_cast; ring
    rw [hcast]
    have hround := round1_sub_le (100 / ((A.length : ℚ) + 1))
    linarith
  have hover : 0 < (calculate_progress goals NutritionData.zero).overall_score := by
    simp only [calculate_progress, hm, Option.map_some', hzs]
    rw [if_pos hmpos]
    simp only [zero_div, zero_mul, ite_self, round1_zero, Option.toList_some]
    have hE : sodiumScore
        { target_max := round1 m, actual := (0:ℚ), percentage := (0:ℚ),
          over_limit := max 0 (0 - m),
          status := if (0:ℚ) ≤ 100 then "good" else "over" } = 100 := by
      simp only [sodiumScore]
      norm_num
    rw [hE]
    apply key
    · intro x hx
      rw [List.mem_map] at hx
      obtain ⟨p, hp, hpx⟩ := hx
      rw [← hpx]
      rw [List.mem_filterMap] at hp
      obtain ⟨o, ho, hop⟩ := hp
      simp only [id_eq] at hop
      subst hop
      simp only [List.mem_cons, List.not_mem_nil, or_false] at ho
      rcases ho with h | h | h | h | h
      · exact nutrientScore_of_zero_actual "calories" goals.daily_calories p h.symm
      · exact nutrientScore_of_zero_actual "protein" goals.daily_protein p h.symm
      · exact nutrientScore_of_zero_actual "carbs" goals.daily_carbs p h.symm
      · exact nutrientScore_of_zero_actual "fat" goals.daily_fat p h.symm
      · exact nutrientScore_of_zero_actual "fiber" goals.daily_fiber p h.symm
    · rw [List.length_map]
      exact List.length_filterMap_le _ _
  refine ⟨hpct, hscore, hover, ?_⟩
  intro db start_date hdb
  have hpfd : ∀ d : ℤ, db.plansForDate d = [] := by
    intro d
    simp [DB.plansForDate, hdb, List.insertionSort]
  have hday : ∀ d : ℤ, (analyze_daily_nutrition db d).total_nutrition
      = NutritionData.zero := by
    intro d
    simp [analyze_daily_nutrition, hpfd, NutritionData.to_dict_zero]
  have hdates : (dateRange start_date (start_date + 6)).length = 7 := by
    unfold dateRange
    rw [List.length_map, List.length_range]
    omega
  simp only [analyze_weekly_progress, analyze_period_nutrition]
  rw [List.filter_eq_self.mpr, List.length_map, List.length_map, hdates]
  intro a ha
  rw [List.mem_map] at ha
  obtain ⟨b, hb, hba⟩ := ha
  rw [List.mem_map] at hb
  obtain ⟨d, _, hdb'⟩ := hb
  rw [← hba, ← hdb']
  simp only [hday]
  exact decide_eq_true hover

/-- C10 witness: the theorem applied to a goal with only a sodium ceiling of
2000 and an empty plan table. -/
theorem C10_empty_day_scores_positive_witness :
    0 < (calculate_progress
        { goal_type := GoalType.custom, daily_sodium_max := some 2000 }
        NutritionData.zero).overall_score
    ∧ (analyze_weekly_progress ({ plans := [] } : DB)
        { goal_type := GoalType.custom, daily_sodium_max := some 2000 }
        0).days_with_data = 7 :=
  ⟨(C10_empty_day_scores_positive
      { goal_type := GoalType.custom, daily_sodium_max := some 2000 }
      2000 rfl (by norm_num)).2.2.1,
   (C10_empty_day_scores_positive
      { goal_type := GoalType.custom, daily_sodium_max := some 2000 }
      2000 rfl (by norm_num)).2.2.2 { plans := [] } 0 rfl⟩

/-! ## C5: deriving recipe nutrition from ingredient lines -/

/-- The contribution of one join row of `_calculate_from_ingredients`:
`None` when the loop `continue`s (quantity `None`/`0`, or `calories_per_100g`
`None`/`0` — Python truthiness), otherwise `per_100g * (quantity / 100)`. -/
def lineContribution (row : Ingredient × Option ℚ × Option String) :
    Option NutritionData :=
  match row.2.1 with
  | none => none
  | some q =>
      if q = 0 ∨ row.1.calories_per_100g.getD 0 = 0 then none
      else some ((ingredientPer100g row.1).mul (q / 100))

/-- The accumulated (pre-division) ingredient total of a recipe. -/
def derivedLineTotal (db : DB) (rid : ℤ) : NutritionData :=
  ndSum ((db.ingredientJoin rid).filterMap lineContribution)

/-- The divisor actually applied to the accumulated total: the recipe's
servings with `None`/`0` falling back to 1, and a non-positive value left
undivided — i.e. divided by 1. -/
def effBaseServings (r : Recipe) : ℤ :=
  if recipeServingsOrOne r > 0 then recipeServingsOrOne r else 1

/-- Modelled from the claim's wording for comparison: skip only lines whose
ingredient is missing from the catalog (not in the join) or whose per-100g
calories value is *absent*; every remaining line contributes
`scale(per_100g, quantity/100)`.  (Lines with no stored quantity cannot occur
— the column is `nullable=False` — and are skipped here too.) -/
def claimLineContribution (row : Ingredient × Option ℚ × Option String) :
    Option NutritionData :=
  match row.2.1 with
  | none => none
  | some q =>
      match row.1.calories_per_100g with
      | none => none
      | some _ => some ((ingredientPer100g row.1).mul (q / 100))

/-- The claim-side accumulated ingredient total. -/
def claimDerivedTotal (db : DB) (rid : ℤ) : NutritionData :=
  ndSum ((db.ingredientJoin rid).filterMap claimLineContribution)

theorem foldl_optAdd {α : Type} (f : α → Option NutritionData) (l : List α)
    (init : NutritionData) :
    l.foldl (fun acc x =>
        match f x with
        | none => acc
        | some v => acc.add v) init
      = init.add (ndSum (l.filterMap f)) := by
  induction l generalizing init with
  | nil => simp [ndSum_nil, NutritionData.add_zero']
  | cons a l ih =>
      simp only [List.foldl_cons, List.filterMap_cons]
      cases hfa : f a with
      | none => rw [ih]
      | some v =>
          rw [ih (init.add v), ndSum_cons, NutritionData.add_assoc']

theorem ingredientLineStep_eq :
    ingredientLineStep = fun acc row =>
      match lineContribution row with
      | none => acc
      | some v => acc.add v := by
  funext acc row
  unfold ingredientLineStep lineContribution
  cases row.2.1 with
  | none => rfl
  | some q =>
      by_cases hc : q = 0 ∨ row.1.calories_per_100g.getD 0 = 0
      · simp [hc]
      · simp [hc]

/-- Scenario A fixture: recipe with no own nutrition, `base_servings = 2`,
one line of 200 units of an ingredient with 100 calories per 100g. -/
def recipeA : Recipe := { id := 1, title := "A", servings := some 2 }

def dbScenarioA : DB :=
  { recipes := [recipeA]
    ingredients := [{ id := 1, name := "X", calories_per_100g := some 100 }]
    recipe_ingredients :=
      [{ recipe_id := 1, ingredient_id := 1, quantity := some 200,
         unit := some "units" }] }

/-- C5 (amended): when a recipe is found, has no own (non-zero) calories and
its ingredient join is non-empty, `analyze_recipe` returns exactly the
accumulated per-line contributions — where a line is skipped when its
quantity is `None` or zero, or its ingredient's per-100g calories are absent
*or zero* — divided by the effective base servings and scaled by the
requested servings; a non-positive base-servings value is treated as 1 and
never raises a division error; and Scenario A yields 400 calories. -/
theorem C5_ingredient_derivation (db : DB) (recipe_id servings : ℤ)
    (r : Recipe) (hr : db.findRecipe recipe_id = some r)
    (hcal : r.calories.getD 0 = 0)
    (hjoin : (db.ingredientJoin recipe_id).isEmpty = false) :
    analyze_recipe db recipe_id servings
      = some (((derivedLineTotal db recipe_id).mul
          (1 / (effBaseServings r : ℚ))).mul ((servings : ℤ) : ℚ))
    ∧ (∀ r0 : Recipe, ∀ s0 : ℤ, r0.servings = some s0 → s0 ≤ 0 →
        effBaseServings r0 = 1)
    ∧ (analyze_recipe dbScenarioA 1 4).map (fun n => n.calories) = some 400 := by
  refine ⟨?_, ?_, ?_⟩
  · have hci : calculate_from_ingredients db recipe_id (recipeServingsOrOne r)
        = some ((derivedLineTotal db recipe_id).mul
            (1 / (effBaseServings r : ℚ))) := by
      unfold calculate_from_ingredients
      simp only [hjoin, Bool.false_eq_true, if_false]
      rw [ingredientLineStep_eq, foldl_optAdd, NutritionData.zero_add']
      by_cases hpos : recipeServingsOrOne r > 0
      · rw [if_pos hpos]
        unfold effBaseServings
        rw [if_pos hpos]
        rfl
      · rw [if_neg hpos]
        unfold effBaseServings
        rw [if_neg hpos]
        norm_num [NutritionData.mul_one', derivedLineTotal]
    unfold analyze_recipe
    rw [hr]
    simp only []
    have hcond : (recipeOwnNutrition r).calories = 0 ∧
        ¬(db.ingredientJoin recipe_id).isEmpty = true := by
      constructor
      · exact hcal
      · rw [hjoin]; exact Bool.false_ne_true
    rw [if_pos hcond, hci]
    by_cases hs : servings ≠ 1
    · rw [if_pos hs]
    · rw [if_neg hs]
      push_neg at hs
      rw [hs]
      norm_num [NutritionData.mul_one']
  · intro r0 s0 hs0 hle
    unfold effBaseServings recipeServingsOrOne
    simp only [hs0]
    by_cases h0 : s0 = 0
    · simp [h0]
    · simp only [h0, if_false]
      rw [if_neg (by omega)]
  · norm_num [analyze_recipe, dbScenarioA, recipeA, DB.findRecipe, List.find?,
      DB.ingredientJoin, DB.rowsForRecipe, DB.findIngredient, List.filter,
      List.filterMap, calculate_from_ingredients, ingredientLineStep,
      recipeOwnNutrition, recipeServingsOrOne, ingredientPer100g,
      NutritionData.mul, NutritionData.add, NutritionData.zero]

/-- Counterexample fixture for the claimed skip rule: an ingredient whose
per-100g calories are *present but zero* (like salt) while its sodium is
non-zero. -/
def recipeSalt : Recipe := { id := 1, title := "Salted", servings := some 1 }

def dbSalt : DB :=
  { recipes := [recipeSalt]
    ingredients := [{ id := 1, name := "Salt", calories_per_100g := some 0,
                      sodium_per_100g := some 100 }]
    recipe_ingredients :=
      [{ recipe_id := 1, ingredient_id := 1, quantity := some 100,
         unit := some "g" }] }

/-- C5 counterexample.  The claim says only lines whose ingredient or per-100g
calories are *absent* are skipped, so a line with calories present-but-zero
should contribute its other nutrients.  The code skips on Python falsiness
(`not ingredient.calories_per_100g`), which also drops a stored zero: for the
salt recipe the claim-side derivation yields 100 mg sodium, while the code
yields 0. -/
theorem C5_counterexample :
    (analyze_recipe dbSalt 1 1).map (fun n => n.sodium) = some 0
    ∧ (((claimDerivedTotal dbSalt 1).mul
        (1 / ((effBaseServings recipeSalt : ℤ) : ℚ))).mul ((1 : ℤ) : ℚ)).sodium
        = 100
    ∧ (0 : ℚ) ≠ 100 := by
  refine ⟨?_, ?_, by norm_num⟩
  · norm_num [analyze_recipe, dbSalt, recipeSalt, DB.findRecipe, List.find?,
      DB.ingredientJoin, DB.rowsForRecipe, DB.findIngredient, List.filter,
      List.filterMap, calculate_from_ingredients, ingredientLineStep,
      recipeOwnNutrition, recipeServingsOrOne, ingredientPer100g,
      NutritionData.mul, NutritionData.add, NutritionData.zero]
  · norm_num [claimDerivedTotal, claimLineContribution, dbSalt, recipeSalt,
      DB.ingredientJoin, DB.rowsForRecipe, DB.findIngredient, List.find?,
      List.filter, List.filterMap, effBaseServings, recipeServingsOrOne,
      ingredientPer100g, ndSum, List.foldl, NutritionData.mul,
      NutritionData.add, NutritionData.zero]

/-- C5 witness: the amended theorem applied to the Scenario A fixture. -/
theorem C5_ingredient_derivation_witness :
    analyze_recipe dbScenarioA 1 4
      = some (((derivedLineTotal dbScenarioA 1).mul
          (1 / (effBaseServings recipeA : ℚ))).mul ((4 : ℤ) : ℚ)) :=
  (C5_ingredient_derivation dbScenarioA 1 4 recipeA rfl rfl rfl).1

/-! ## C4: nutrition of a shopping list -/

/-- The spec's per-item contribution for `nutrition_of`: skip the sentinel id
and unresolvable ingredients, otherwise `scale(per_100g, total_quantity/100)`
over all seven components. -/
def specItemContribution (db : DB) (item : ShoppingListItem) :
    Option NutritionData :=
  if item.ingredient_id = -1 then none
  else (db.findIngredient item.ingredient_id).map
    (fun ing => (ingredientPer100g ing).mul (item.total_quantity / 100))

/-- The spec's `nutrition_of(shopping_list)`: the seven-component sum of the
per-item contributions. -/
def nutritionOfSpec (db : DB) (sl : ShoppingList) : NutritionData :=
  ndSum (sl.items.filterMap (specItemContribution db))

theorem addComponent_eq (v : Option ℚ) (factor acc : ℚ) :
    addComponent v factor acc = acc + v.getD 0 * factor := by
  unfold addComponent
  cases v with
  | none => simp
  | some x =>
      by_cases hx : x = 0
      · simp [hx]
      · simp [hx]

theorem shoppingFold_components (db : DB) (l : List ShoppingListItem)
    (acc : ShoppingNutritionTotals) :
    (l.foldl (shoppingNutritionStep db) acc).calories
        = acc.calories + (ndSum (l.filterMap (specItemContribution db))).calories
    ∧ (l.foldl (shoppingNutritionStep db) acc).protein
        = acc.protein + (ndSum (l.filterMap (specItemContribution db))).protein
    ∧ (l.foldl (shoppingNutritionStep db) acc).carbs
        = acc.carbs + (ndSum (l.filterMap (specItemContribution db))).carbs
    ∧ (l.foldl (shoppingNutritionStep db) acc).fat
        = acc.fat + (ndSum (l.filterMap (specItemContribution db))).fat
    ∧ (l.foldl (shoppingNutritionStep db) acc).fiber
        = acc.fiber + (ndSum (l.filterMap (specItemContribution db))).fiber
    ∧ (l.foldl (shoppingNutritionStep db) acc).sodium
        = acc.sodium + (ndSum (l.filterMap (specItemContribution db))).sodium := by
  induction l generalizing acc with
  | nil =>
      simp [ndSum_nil, NutritionData.zero]
  | cons item l ih =>
      simp only [List.foldl_cons, List.filterMap_cons]
      by_cases hs : item.ingredient_id = -1
      · have hstep : shoppingNutritionStep db acc item = acc := by
          unfold shoppingNutritionStep
          rw [if_pos hs]
        have hcontrib : specItemContribution db item = none := by
          unfold specItemContribution
          rw [if_pos hs]
        rw [hstep, hcontrib]
        exact ih acc
      · cases hfind : db.findIngredient item.ingredient_id with
        | none =>
            have hstep : shoppingNutritionStep db acc item = acc := by
              unfold shoppingNutritionStep
              rw [if_neg hs, hfind]
            have hcontrib : specItemContribution db item = none := by
              unfold specItemContribution
              rw [if_neg hs, hfind]
              rfl
            rw [hstep, hcontrib]
            exact ih acc
        | some ing =>
            have hcontrib : specItemContribution db item
                = some ((ingredientPer100g ing).mul (item.total_quantity / 100)) := by
              unfold specItemContribution
              rw [if_neg hs, hfind]
              rfl
            have hstep : shoppingNutritionStep db acc item =
                { calories := acc.calories + ing.calories_per_100g.getD 0
                    * (item.total_quantity / 100)
                  protein := acc.protein + ing.protein_per_100g.getD 0
                    * (item.total_quantity / 100)
                  carbs := acc.carbs + ing.carbs_per_100g.getD 0
                    * (item.total_quantity / 100)
                  fat := acc.fat + ing.fat_per_100g.getD 0
                    * (item.total_quantity / 100)
                  fiber := acc.fiber + ing.fiber_per_100g.getD 0
                    * (item.total_quantity / 100)
                  sodium := acc.sodium + ing.sodium_per_100g.getD 0
                    * (item.total_quantity / 100) } := by
              unfold shoppingNutritionStep
              rw [if_neg hs, hfind]
              simp only [addComponent_eq]
            rw [hstep, hcontrib]
            obtain ⟨ih1, ih2, ih3, ih4, ih5, ih6⟩ := ih
              { calories := acc.calories + ing.calories_per_100g.getD 0
                  * (item.total_quantity / 100)
                protein := acc.protein + ing.protein_per_100g.getD 0
                  * (item.total_quantity / 100)
                carbs := acc.carbs + ing.carbs_per_100g.getD 0
                  * (item.total_quantity / 100)
                fat := acc.fat + ing.fat_per_100g.getD 0
                  * (item.total_quantity / 100)
                fiber := acc.fiber + ing.fiber_per_100g.getD 0
                  * (item.total_quantity / 100)
                sodium := acc.sodium + ing.sodium_per_100g.getD 0
                  * (item.total_quantity / 100) }
            rw [ih1, ih2, ih3, ih4, ih5, ih6, ndSum_cons]
            simp only [NutritionData.add, NutritionData.mul, ingredientPer100g]
            refine ⟨by ring, by ring, by ring, by ring, by ring, by ring⟩

/-- C4 (amended): `calculate_shopping_list_nutrition` returns, for *six* of
the seven nutrient components — sugar is not computed and has no key in the
returned dict — the one-decimal rounding of the spec's sum
`Σ scale(ingredient.nutrition_per_100g, item.total_quantity/100)` over every
non-sentinel item whose ingredient resolves; sentinel (-1) items and items
with missing ingredients are skipped without error. -/
theorem C4_shopping_nutrition (db : DB) (sl : ShoppingList) :
    (calculate_shopping_list_nutrition db sl).calories
        = round1 (nutritionOfSpec db sl).calories
    ∧ (calculate_shopping_list_nutrition db sl).protein
        = round1 (nutritionOfSpec db sl).protein
    ∧ (calculate_shopping_list_nutrition db sl).carbs
        = round1 (nutritionOfSpec db sl).carbs
    ∧ (calculate_shopping_list_nutrition db sl).fat
        = round1 (nutritionOfSpec db sl).fat
    ∧ (calculate_shopping_list_nutrition db sl).fiber
        = round1 (nutritionOfSpec db sl).fiber
    ∧ (calculate_shopping_list_nutrition db sl).sodium
        = round1 (nutritionOfSpec db sl).sodium := by
  obtain ⟨h1, h2, h3, h4, h5, h6⟩ := shoppingFold_components db sl.items
    { calories := 0, protein := 0, carbs := 0, fat := 0, fiber := 0, sodium := 0 }
  unfold calculate_shopping_list_nutrition nutritionOfSpec
  simp only []
  rw [h1, h2, h3, h4, h5, h6]
  norm_num [nutritionOfSpec]

/-- Counterexample fixture: one item of 15 units of an ingredient with 33.4
calories and 20 g sugar per 100 g. -/
def jamIngredient : Ingredient :=
  { id := 1, name := "Jam", calories_per_100g := some (167/5),
    sugar_per_100g := some 20 }

def dbJam : DB := { ingredients := [jamIngredient] }

def slJam : ShoppingList :=
  { start_date := 0, end_date := 0
    items := [{ ingredient_id := 1, ingredient_name := "Jam", category := none,
                total_quantity := 15, unit := "g", recipes_used := [] }]
    total_recipes := 0, total_meals := 0, categories := [] }

/-- C4 counterexample.  The claim says the returned totals equal the
*un-rounded* seven-component sum: here the exact calories sum is 5.01 but the
code reports the rounded 5.0, and the spec sum's sugar component is 3 while
the returned dict carries no sugar entry at all (the result type has no sugar
field). -/
theorem C4_counterexample :
    (calculate_shopping_list_nutrition dbJam slJam).calories = 5
    ∧ (nutritionOfSpec dbJam slJam).calories = 501/100
    ∧ ((5 : ℚ) ≠ 501/100)
    ∧ (nutritionOfSpec dbJam slJam).sugar = 3 := by
  have hround : round1 (501/100 : ℚ) = 5 := by
    have h := round1_eq_of_near (501/100) 50 (by norm_num) (by norm_num)
    rw [h]
    norm_num
  have hspec : nutritionOfSpec dbJam slJam
      = (ingredientPer100g jamIngredient).mul (15 / 100) := by
    norm_num [nutritionOfSpec, specItemContribution, dbJam, slJam,
      DB.findIngredient, List.find?, List.filterMap, ndSum, List.foldl,
      NutritionData.zero_add']
  refine ⟨?_, ?_, by norm_num, ?_⟩
  · have hcode : (calculate_shopping_list_nutrition dbJam slJam).calories
        = round1 (501/100) := by
      norm_num [calculate_shopping_list_nutrition, shoppingNutritionStep,
        addComponent, dbJam, slJam, jamIngredient, DB.findIngredient,
        List.find?, List.foldl]
    rw [hcode, hround]
  · rw [hspec]
    norm_num [ingredientPer100g, jamIngredient, NutritionData.mul]
  · rw [hspec]
    norm_num [ingredientPer100g, jamIngredient, NutritionData.mul]

/-! ## C2: period aggregation and per-day rounding -/

/-- The full-precision (un-rounded) daily total the spec describes: the sum
of each resolvable entry's resolved nutrition over the day's plans. -/
def fullPrecisionDailyTotal (db : DB) (d : ℤ) : NutritionData :=
  ndSum ((db.plansForDate d).filterMap (fun p => analyze_meal_plan db p.id))

theorem dailyFold_fst (db : DB) (l : List Plan)
    (st : NutritionData × (MealType → Option NutritionData)) :
    (l.foldl (dailyStep db) st).1
      = st.1.add (ndSum (l.filterMap (fun p => analyze_meal_plan db p.id))) := by
  induction l generalizing st with
  | nil => simp [ndSum_nil, NutritionData.add_zero']
  | cons p l ih =>
      simp only [List.foldl_cons, List.filterMap_cons]
      cases hres : analyze_meal_plan db p.id with
      | none =>
          have hstep : dailyStep db st p = st := by
            unfold dailyStep
            rw [hres]
          rw [hstep]
          exact ih st
      | some n =>
          have hstep : dailyStep db st p
              = (st.1.add n, Function.update st.2 p.meal_type (some n.to_dict)) := by
            unfold dailyStep
            rw [hres]
          rw [hstep, ih, ndSum_cons, NutritionData.add_assoc']

/-- C2 (amended): the reported period total is the once-more-rounded sum of
the per-day *rounded* totals — each day's `total_nutrition` entering the
period sum is already the one-decimal `to_dict` of that day's full-precision
total, so rounding is applied per day before aggregation (and once more at
the period boundary), not only once at the boundary. -/
theorem C2_period_total_rounding (db : DB) (s e : ℤ) :
    (analyze_period_nutrition db s e).total_nutrition
      = (ndSum ((dateRange s e).map
          (fun d => (analyze_daily_nutrition db d).total_nutrition))).to_dict
    ∧ (∀ d : ℤ, (analyze_daily_nutrition db d).total_nutrition
        = (fullPrecisionDailyTotal db d).to_dict) := by
  constructor
  · unfold analyze_period_nutrition
    simp only []
    have hfold : ∀ (al : List DailyAnalysis),
        al.foldl (fun acc a => acc.add a.total_nutrition) NutritionData.zero
          = ndSum (al.map (fun a => a.total_nutrition)) := by
      intro al
      rw [← List.foldl_map, ← ndSum]
    rw [hfold, List.map_map]
    rfl
  · intro d
    unfold analyze_daily_nutrition fullPrecisionDailyTotal
    simp only []
    rw [dailyFold_fst, NutritionData.zero_add']

/-- Counterexample fixture: one recipe of 0.04 calories per serving planned
on two consecutive days. -/
def recipeTiny : Recipe :=
  { id := 1, title := "Tiny", servings := some 1, calories := some (1/25) }

def dbTiny : DB :=
  { recipes := [recipeTiny]
    plans := [{ id := 1, date := 0, meal_type := MealType.breakfast,
                recipe_id := 1, servings := 1 },
              { id := 2, date := 1, meal_type := MealType.breakfast,
                recipe_id := 1, servings := 1 }] }

/-- C2 counterexample.  Two days of 0.04 calories each: every per-day total
is rounded to 0.0 before the period sum, so the reported period total is 0.0,
while the spec's full-precision aggregate 0.08 rounded once at the boundary
is 0.1. -/
theorem C2_counterexample :
    (analyze_period_nutrition dbTiny 0 1).total_nutrition.calories = 0
    ∧ ((ndSum ((dateRange 0 1).map
        (fun d => fullPrecisionDailyTotal dbTiny d))).to_dict).calories = 1/10
    ∧ (0 : ℚ) ≠ 1/10 := by
  have hr04 : round1 (1/25 : ℚ) = 0 := by
    have h := round1_eq_of_near (1/25) 0 (by norm_num) (by norm_num)
    rw [h]
    norm_num
  have hr08 : round1 (2/25 : ℚ) = 1/10 := by
    have h := round1_eq_of_near (2/25) 1 (by norm_num) (by norm_num)
    rw [h]
    norm_num
  refine ⟨?_, ?_, by norm_num⟩
  · norm_num [analyze_period_nutrition, analyze_daily_nutrition, dailyStep,
      analyze_meal_plan, DB.findPlan, analyze_recipe, DB.findRecipe,
      DB.plansForDate, DB.ingredientJoin, DB.rowsForRecipe, DB.findIngredient,
      dateRange, recipeOwnNutrition, recipeServingsOrOne, dbTiny, recipeTiny,
      NutritionData.to_dict, NutritionData.add, NutritionData.zero, ndSum,
      List.insertionSort, List.orderedInsert, List.find?, List.filter,
      List.filterMap, List.foldl, List.range_succ, List.range_zero, List.map,
      mealTypeRank, hr04, round1_zero]
  · norm_num [fullPrecisionDailyTotal, analyze_meal_plan, DB.findPlan,
      analyze_recipe, DB.findRecipe, DB.plansForDate, DB.ingredientJoin,
      DB.rowsForRecipe, DB.findIngredient, dateRange, recipeOwnNutrition,
      recipeServingsOrOne, dbTiny, recipeTiny, NutritionData.to_dict,
      NutritionData.add, NutritionData.zero, ndSum, List.insertionSort,
      List.orderedInsert, List.find?, List.filter, List.filterMap, List.foldl,
      List.range_succ, List.range_zero, List.map, mealTypeRank, hr08]

/-! ## C3: daily aggregation and the meal-slot bucket -/

/-- The resolved nutrition vectors of a day's entries for one meal slot, in
processing order. -/
def slotResolved (db : DB) (d : ℤ) (m : MealType) : List NutritionData :=
  (db.plansForDate d).filterMap (fun p =>
    if p.meal_type = m then analyze_meal_plan db p.id else none)

theorem dailyFold_snd (db : DB) (m : MealType) (l : List Plan)
    (st : NutritionData × (MealType → Option NutritionData)) :
    (l.foldl (dailyStep db) st).2 m
      = ((l.filterMap (fun p =>
            if p.meal_type = m then analyze_meal_plan db p.id
            else none)).getLast?).elim (st.2 m) (fun n => some n.to_dict) := by
  induction l generalizing st with
  | nil => rfl
  | cons p l ih =>
      simp only [List.foldl_cons, List.filterMap_cons]
      cases hres : analyze_meal_plan db p.id with
      | none =>
          have hstep : dailyStep db st p = st := by
            unfold dailyStep
            rw [hres]
          rw [hstep, ite_self]
          exact ih st
      | some n =>
          have hstep : dailyStep db st p
              = (st.1.add n,
                  Function.update st.2 p.meal_type (some n.to_dict)) := by
            unfold dailyStep
            rw [hres]
          rw [hstep]
          by_cases hm : p.meal_type = m
          · rw [if_pos hm, ih]
            dsimp only
            have hupd : Function.update st.2 p.meal_type (some n.to_dict) m
                = some n.to_dict := by
              rw [hm]
              exact Function.update_same m (some n.to_dict) st.2
            rw [hupd]
            cases hrest : (l.filterMap (fun p =>
                if p.meal_type = m then analyze_meal_plan db p.id
                else none)).getLast? with
            | none =>
                have hnil := List.getLast?_eq_none_iff.mp hrest
                rw [hnil]
                rfl
            | some x =>
                have hne : l.filterMap (fun p =>
                    if p.meal_type = m then analyze_meal_plan db p.id
                    else none) ≠ [] := by
                  intro hc
                  rw [hc] at hrest
                  exact Option.noConfusion hrest
                cases hl : l.filterMap (fun p =>
                    if p.meal_type = m then analyze_meal_plan db p.id
                    else none) with
                | nil => exact absurd hl hne
                | cons r rs =>
                    rw [hl] at hrest
                    rw [List.getLast?_cons_cons, hrest]
                    rfl
          · rw [if_neg hm, ih]
            dsimp only
            have hupd : Function.update st.2 p.meal_type (some n.to_dict) m
                = st.2 m :=
              Function.update_noteq (fun hc => hm hc.symm) _ _
            rw [hupd]

/-- C3 (amended): `analyze_daily_nutrition` adds every resolvable entry's
nutrition into the running day total (rounded once at the end), and counts
every entry — resolvable or not — in `meal_count`; but the meal-slot bucket
is *assigned*, not accumulated: the bucket for a slot holds the rounded
nutrition of the single most-recently processed resolvable entry of that
slot, not the sum over the slot's entries. -/
theorem C3_daily_bucket_overwrite (db : DB) (d : ℤ) (m : MealType) :
    (analyze_daily_nutrition db d).total_nutrition
        = (fullPrecisionDailyTotal db d).to_dict
    ∧ (analyze_daily_nutrition db d).meal_nutrition m
        = (slotResolved db d m).getLast?.map NutritionData.to_dict
    ∧ (analyze_daily_nutrition db d).meal_count = (db.plansForDate d).length
    ∧ (analyze_daily_nutrition db d).completed_meals
        = ((db.plansForDate d).filter (fun p => p.completed)).length := by
  refine ⟨?_, ?_, rfl, rfl⟩
  · unfold analyze_daily_nutrition fullPrecisionDailyTotal
    simp only []
    rw [dailyFold_fst, NutritionData.zero_add']
  · unfold analyze_daily_nutrition slotResolved
    simp only []
    rw [dailyFold_snd]
    cases ((db.plansForDate d).filterMap (fun p =>
        if p.meal_type = m then analyze_meal_plan db p.id
        else none)).getLast? with
    | none => rfl
    | some x => rfl

/-- Counterexample fixture: two lunch entries on the same day with different
recipes (1 and 2 calories per serving). -/
def recipeOneCal : Recipe :=
  { id := 1, title := "One", servings := some 1, calories := some 1 }

def recipeTwoCal : Recipe :=
  { id := 2, title := "Two", servings := some 1, calories := some 2 }

def dbTwoLunch : DB :=
  { recipes := [recipeOneCal, recipeTwoCal]
    plans := [{ id := 1, date := 0, meal_type := MealType.lunch,
                recipe_id := 1, servings := 1 },
              { id := 2, date := 0, meal_type := MealType.lunch,
                recipe_id := 2, servings := 1 }] }

/-- C3 counterexample.  With two lunch entries of 1 and 2 calories on one
day, the lunch bucket reports 2 calories — the last entry's nutrition,
overwriting the first — while the claimed sum over the slot's entries is 3. -/
theorem C3_counterexample :
    ((analyze_daily_nutrition dbTwoLunch 0).meal_nutrition
        MealType.lunch).map (fun n => n.calories) = some 2
    ∧ (ndSum (slotResolved dbTwoLunch 0 MealType.lunch)).calories = 3
    ∧ ((2 : ℚ) ≠ 3) := by
  have hr1 : round1 (1 : ℚ) = 1 := by
    have h := round1_int 1; push_cast at h; exact h
  have hr2 : round1 (2 : ℚ) = 2 := by
    have h := round1_int 2; push_cast at h; exact h
  refine ⟨?_, ?_, by norm_num⟩
  · norm_num [analyze_daily_nutrition, dailyStep, analyze_meal_plan,
      DB.findPlan, analyze_recipe, DB.findRecipe, DB.plansForDate,
      DB.ingredientJoin, DB.rowsForRecipe, DB.findIngredient,
      recipeOwnNutrition, recipeServingsOrOne, dbTwoLunch, recipeOneCal,
      recipeTwoCal, NutritionData.to_dict, NutritionData.add,
      NutritionData.zero, List.insertionSort, List.orderedInsert, List.find?,
      List.filter, List.filterMap, List.foldl, mealTypeRank, Function.update,
      hr1, hr2]
  · norm_num [slotResolved, analyze_meal_plan, DB.findPlan, analyze_recipe,
      DB.findRecipe, DB.plansForDate, DB.ingredientJoin, DB.rowsForRecipe,
      DB.findIngredient, recipeOwnNutrition, recipeServingsOrOne, dbTwoLunch,
      recipeOneCal, recipeTwoCal, NutritionData.add, NutritionData.zero,
      ndSum, List.insertionSort, List.orderedInsert, List.find?, List.filter,
      List.filterMap, List.foldl, mealTypeRank]

/-! ## C8: order-independence of shopping-list aggregation -/

/-- The quantity aggregated so far for ingredient id `i`. -/
def aggLookup (acc : List (ℤ × IngredientAgg)) (i : ℤ) : Option ℚ :=
  (acc.find? (fun ka => decide (ka.1 = i))).map (fun ka => ka.2.total_quantity)

/-- The quantity one join row contributes to ingredient id `i` (scaled by the
entry's servings; rows with no stored quantity contribute nothing). -/
def rowContribution (i : ℤ) (servings : ℤ)
    (row : Ingredient × Option ℚ × Option String × String) : ℚ :=
  match row.2.1 with
  | none => 0
  | some q => if row.1.id = i then q * (servings : ℚ) else 0

/-- Whether one join row creates/updates the aggregation entry of id `i`. -/
def rowTouches (i : ℤ)
    (row : Ingredient × Option ℚ × Option String × String) : Bool :=
  decide (row.1.id = i) && row.2.1.isSome

/-- The total quantity one plan contributes to ingredient id `i`. -/
def planContribution (db : DB) (i : ℤ) (p : Plan) : ℚ :=
  ((db.shoppingJoin p.recipe_id).map (rowContribution i p.servings)).sum

/-- Whether one plan touches the aggregation entry of id `i`. -/
def planTouches (db : DB) (i : ℤ) (p : Plan) : Bool :=
  (db.shoppingJoin p.recipe_id).any (rowTouches i)

theorem aggLookup_nil (i : ℤ) : aggLookup [] i = none := rfl

theorem aggLookup_upsert (acc : List (ℤ × IngredientAgg)) (ing : Ingredient)
    (unit : Option String) (scaled : ℚ) (title : String) (i : ℤ) :
    aggLookup (aggUpsert acc ing unit scaled title) i
      = if ing.id = i then some ((aggLookup acc i).getD 0 + scaled)
        else aggLookup acc i := by
  induction acc with
  | nil =>
      by_cases h : ing.id = i
      · simp [aggUpsert, aggLookup, List.find?, h]
      · simp [aggUpsert, aggLookup, List.find?, h]
  | cons ka rest ih =>
      obtain ⟨k, a⟩ := ka
      unfold aggUpsert
      by_cases hk : k = ing.id
      · rw [if_pos hk]
        by_cases hi : ing.id = i
        · have hki : k = i := hk.trans hi
          simp [aggLookup, List.find?, hki, hi]
        · have hki : ¬(k = i) := fun hc => hi (hk.symm.trans hc)
          simp [aggLookup, List.find?, hki, hi]
      · rw [if_neg hk]
        by_cases hki : k = i
        · have hii : ¬(ing.id = i) := fun hc => hk (hki.trans hc.symm)
          simp [aggLookup, List.find?, hki, hii]
        · by_cases hi : ing.id = i
          · simpa [aggLookup, List.find?, hki, hi] using ih
          · simpa [aggLookup, List.find?, hki, hi] using ih

theorem rowContribution_of_not_touches (i s : ℤ)
    (row : Ingredient × Option ℚ × Option String × String)
    (h : rowTouches i row = false) : rowContribution i s row = 0 := by
  unfold rowTouches at h
  unfold rowContribution
  cases hq : row.2.1 with
  | none => rfl
  | some q =>
      rw [hq] at h
      simp only [Option.isSome_some, Bool.and_true, decide_eq_false_iff_not] at h
      dsimp only
      rw [if_neg h]

theorem sum_rowContribution_of_no_touch (i s : ℤ)
    (rows : List (Ingredient × Option ℚ × Option String × String))
    (h : rows.any (rowTouches i) = false) :
    (rows.map (rowContribution i s)).sum = 0 := by
  apply List.sum_eq_zero
  intro x hx
  rw [List.mem_map] at hx
  obtain ⟨row, hrow, hrx⟩ := hx
  rw [← hrx]
  rw [List.any_eq_false] at h
  exact rowContribution_of_not_touches i s row
    (Bool.eq_false_iff.mpr (h row hrow))

theorem aggLookup_foldRows (db : DB)
    (rows : List (Ingredient × Option ℚ × Option String × String))
    (servings : ℤ) (acc : List (ℤ × IngredientAgg)) (i : ℤ) :
    aggLookup (rows.foldl
      (fun acc2 row =>
        match row.2.1 with
        | none => acc2
        | some q => aggUpsert acc2 row.1 row.2.2.1 (q * (servings : ℚ))
            row.2.2.2) acc) i
      = if rows.any (rowTouches i)
        then some ((aggLookup acc i).getD 0
          + (rows.map (rowContribution i servings)).sum)
        else aggLookup acc i := by
  induction rows generalizing acc with
  | nil => simp
  | cons row rows ih =>
      simp only [List.foldl_cons, List.any_cons, List.map_cons, List.sum_cons]
      cases hq : row.2.1 with
      | none =>
          have htouch : rowTouches i row = false := by
            unfold rowTouches
            rw [hq]
            simp
          have hcontrib : rowContribution i servings row = 0 := by
            unfold rowContribution
            rw [hq]
          dsimp only
          rw [htouch, hcontrib, ih]
          simp only [Bool.false_or, zero_add]
      | some q =>
          by_cases hid : row.1.id = i
          · have htouch : rowTouches i row = true := by
              unfold rowTouches
              rw [hq]
              simp [hid]
            have hcontrib : rowContribution i servings row
                = q * (servings : ℚ) := by
              unfold rowContribution
              rw [hq]
              dsimp only
              rw [if_pos hid]
            dsimp only
            rw [htouch, hcontrib, ih]
            rw [aggLookup_upsert, if_pos hid]
            by_cases hany : rows.any (rowTouches i) = true
            · simp only [hany, Bool.true_or, if_true, Option.getD_some]
              congr 1
              ring
            · rw [Bool.not_eq_true] at hany
              rw [sum_rowContribution_of_no_touch i servings rows hany]
              simp only [hany, Bool.true_or, Bool.or_false, if_true,
                Option.getD_some, add_zero]
              split <;> rfl
          · have htouch : rowTouches i row = false := by
              unfold rowTouches
              rw [hq]
              simp [hid]
            have hcontrib : rowContribution i servings row = 0 := by
              unfold rowContribution
              rw [hq]
              dsimp only
              rw [if_neg hid]
            dsimp only
            rw [htouch, hcontrib, ih]
            rw [aggLookup_upsert, if_neg hid]
            simp only [Bool.false_or, zero_add]

theorem planContribution_of_not_touches (db : DB) (i : ℤ) (p : Plan)
    (h : planTouches db i p = false) : planContribution db i p = 0 := by
  unfold planTouches at h
  unfold planContribution
  rw [List.any_eq_false] at h
  apply List.sum_eq_zero
  intro x hx
  rw [List.mem_map] at hx
  obtain ⟨row, hrow, hrx⟩ := hx
  rw [← hrx]
  exact rowContribution_of_not_touches i p.servings row
    (Bool.eq_false_iff.mpr (h row hrow))

theorem aggLookup_plansFold (db : DB) (plans : List Plan)
    (acc : List (ℤ × IngredientAgg)) (i : ℤ) :
    aggLookup (plans.foldl
      (fun acc p => aggRecipeRows db acc p.recipe_id p.servings) acc) i
      = if plans.any (planTouches db i)
        then some ((aggLookup acc i).getD 0
          + (plans.map (planContribution db i)).sum)
        else aggLookup acc i := by
  induction plans generalizing acc with
  | nil => simp
  | cons p plans ih =>
      simp only [List.foldl_cons, List.any_cons, List.map_cons, List.sum_cons]
      have hstep : aggLookup (aggRecipeRows db acc p.recipe_id p.servings) i
          = if planTouches db i p
            then some ((aggLookup acc i).getD 0 + planContribution db i p)
            else aggLookup acc i := by
        unfold aggRecipeRows planTouches planContribution
        exact aggLookup_foldRows db (db.shoppingJoin p.recipe_id) p.servings acc i
      rw [ih]
      by_cases htp : planTouches db i p = true
      · rw [htp, Bool.true_or, hstep, htp]
        simp only [eq_self_iff_true, if_true, Option.getD_some]
        by_cases hany : plans.any (planTouches db i) = true
        · rw [hany]
          simp only [eq_self_iff_true, if_true]
          congr 1
          ring
        · rw [Bool.not_eq_true] at hany
          rw [hany]
          simp only [Bool.false_eq_true, if_false]
          have hzero : (plans.map (planContribution db i)).sum = 0 := by
            apply List.sum_eq_zero
            intro x hx
            rw [List.mem_map] at hx
            obtain ⟨pp, hpp, hppx⟩ := hx
            rw [← hppx]
            rw [List.any_eq_false] at hany
            exact planContribution_of_not_touches db i pp
              (Bool.eq_false_iff.mpr (hany pp hpp))
          rw [hzero]
          congr 1
          ring
      · rw [Bool.not_eq_true] at htp
        rw [htp, Bool.false_or]
        rw [hstep, htp]
        simp only [Bool.false_eq_true, if_false]
        rw [planContribution_of_not_touches db i p htp]
        simp only [zero_add]

theorem aggUpsert_keys_subset (acc : List (ℤ × IngredientAgg))
    (ing : Ingredient) (unit : Option String) (scaled : ℚ) (title : String) :
    ∀ x ∈ (aggUpsert acc ing unit scaled title).map Prod.fst,
      x ∈ acc.map Prod.fst ∨ x = ing.id := by
  induction acc with
  | nil =>
      intro x hx
      simp only [aggUpsert, List.map_cons, List.map_nil,
        List.mem_singleton] at hx
      exact Or.inr hx
  | cons ka rest ih =>
      obtain ⟨k, a⟩ := ka
      intro x hx
      unfold aggUpsert at hx
      by_cases hk : k = ing.id
      · rw [if_pos hk] at hx
        rw [List.map_cons, List.mem_cons] at hx
        rcases hx with hh | hh
        · exact Or.inl (by rw [List.map_cons, List.mem_cons]; exact Or.inl hh)
        · exact Or.inl (by rw [List.map_cons, List.mem_cons]; exact Or.inr hh)
      · rw [if_neg hk] at hx
        rw [List.map_cons, List.mem_cons] at hx
        rcases hx with hh | hh
        · exact Or.inl (by rw [List.map_cons, List.mem_cons]; exact Or.inl hh)
        · rcases ih x hh with h2 | h2
          · exact Or.inl
              (by rw [List.map_cons, List.mem_cons]; exact Or.inr h2)
          · exact Or.inr h2

/-- Key well-formedness of the aggregation dict: every stored entry carries
the ingredient with its own key, and keys are distinct. -/
def aggWf (acc : List (ℤ × IngredientAgg)) : Prop :=
  (∀ ka ∈ acc, ka.2.ingredient.id = ka.1) ∧ (acc.map Prod.fst).Nodup

theorem aggWf_upsert (acc : List (ℤ × IngredientAgg)) (ing : Ingredient)
    (unit : Option String) (scaled : ℚ) (title : String)
    (h : aggWf acc) : aggWf (aggUpsert acc ing unit scaled title) := by
  obtain ⟨hval, hkeys⟩ := h
  induction acc with
  | nil =>
      constructor
      · intro ka hka
        simp only [aggUpsert, List.mem_singleton] at hka
        rw [hka]
      · simp [aggUpsert]
  | cons ka rest ih =>
      obtain ⟨k, a⟩ := ka
      unfold aggUpsert
      by_cases hk : k = ing.id
      · rw [if_pos hk]
        constructor
        · intro kb hkb
          rcases List.mem_cons.mp hkb with hh | hh
          · rw [hh]
            exact hval (k, a) (List.mem_cons_self _ _)
          · exact hval kb (List.mem_cons_of_mem _ hh)
        · simpa using hkeys
      · rw [if_neg hk]
        have hval' : ∀ kb ∈ rest, kb.2.ingredient.id = kb.1 :=
          fun kb hkb => hval kb (List.mem_cons_of_mem _ hkb)
        have hkeys' : (rest.map Prod.fst).Nodup := by
          rw [List.map_cons, List.nodup_cons] at hkeys
          exact hkeys.2
        obtain ⟨ihv, ihk⟩ := ih hval' hkeys'
        constructor
        · intro kb hkb
          rcases List.mem_cons.mp hkb with hh | hh
          · rw [hh]
            exact hval (k, a) (List.mem_cons_self _ _)
          · exact ihv kb hh
        · rw [List.map_cons, List.nodup_cons]
          refine ⟨?_, ihk⟩
          intro hc
          have hkeys_up := aggUpsert_keys_subset rest ing unit scaled title
          rcases hkeys_up k hc with hh | hh
          · rw [List.map_cons, List.nodup_cons] at hkeys
            exact hkeys.1 hh
          · exact hk hh

theorem aggWf_foldRows (db : DB)
    (rows : List (Ingredient × Option ℚ × Option String × String))
    (servings : ℤ) (acc : List (ℤ × IngredientAgg)) (h : aggWf acc) :
    aggWf (rows.foldl
      (fun acc2 row =>
        match row.2.1 with
        | none => acc2
        | some q => aggUpsert acc2 row.1 row.2.2.1 (q * (servings : ℚ))
            row.2.2.2) acc) := by
  have hstep : ∀ (acc2 : List (ℤ × IngredientAgg))
      (row : Ingredient × Option ℚ × Option String × String), aggWf acc2 →
      aggWf ((fun acc2 (row : Ingredient × Option ℚ × Option String × String) =>
        match row.2.1 with
        | none => acc2
        | some q => aggUpsert acc2 row.1 row.2.2.1 (q * (servings : ℚ))
            row.2.2.2) acc2 row) := by
    intro acc2 row h2
    cases hq : row.2.1 with
    | none => simpa [hq] using h2
    | some q =>
        dsimp only
        rw [hq]
        exact aggWf_upsert acc2 row.1 row.2.2.1 (q * (servings : ℚ))
          row.2.2.2 h2
  induction rows generalizing acc with
  | nil => exact h
  | cons row rows ih =>
      simp only [List.foldl_cons]
      exact ih _ (hstep acc row h)

theorem aggWf_plansFold (db : DB) (plans : List Plan)
    (acc : List (ℤ × IngredientAgg)) (h : aggWf acc) :
    aggWf (plans.foldl
      (fun acc p => aggRecipeRows db acc p.recipe_id p.servings) acc) := by
  induction plans generalizing acc with
  | nil => exact h
  | cons p plans ih =>
      simp only [List.foldl_cons]
      exact ih _ (aggWf_foldRows db (db.shoppingJoin p.recipe_id) p.servings acc h)

theorem find?_eq_head?_filter {α : Type} (p : α → Bool) (l : List α) :
    l.find? p = (l.filter p).head? := by
  induction l with
  | nil => rfl
  | cons a l ih =>
      rw [List.find?_cons, List.filter_cons]
      cases hp : p a
      · simpa [hp] using ih
      · simp [hp]

theorem find?_congr_perm {α : Type} (p : α → Bool) (l1 l2 : List α)
    (hperm : l1.Perm l2)
    (huniq : ∀ a ∈ l1, ∀ b ∈ l1, p a = true → p b = true → a = b) :
    l1.find? p = l2.find? p := by
  rw [find?_eq_head?_filter, find?_eq_head?_filter]
  have hf : (l1.filter p).Perm (l2.filter p) := hperm.filter p
  cases h1 : l1.filter p with
  | nil =>
      rw [h1] at hf
      rw [List.perm_nil.mp hf.symm]
  | cons a t =>
      rw [h1] at hf
      cases h2 : l2.filter p with
      | nil =>
          rw [h2] at hf
          exact absurd (List.perm_nil.mp hf) (by simp)
      | cons b t2 =>
          rw [h2] at hf
          have ha : a ∈ l1 ∧ p a = true := by
            have hmem : a ∈ l1.filter p := by
              rw [h1]
              exact List.mem_cons_self _ _
            rw [List.mem_filter] at hmem
            exact hmem
          have hb : b ∈ l1 ∧ p b = true := by
            have hmem : b ∈ l1.filter p := by
              rw [h1]
              exact hf.mem_iff.mpr (List.mem_cons_self _ _)
            rw [List.mem_filter] at hmem
            exact hmem
          rw [List.head?_cons, List.head?_cons,
            huniq a ha.1 b hb.1 ha.2 hb.2]

theorem find?_items_eq_aggLookup (acc : List (ℤ × IngredientAgg)) (i : ℤ)
    (hval : ∀ ka ∈ acc, ka.2.ingredient.id = ka.1) :
    ((acc.map (fun ka => aggToItem ka.2)).find?
        (fun it => decide (it.ingredient_id = i))).map
      (fun it => it.total_quantity) = aggLookup acc i := by
  induction acc with
  | nil => rfl
  | cons ka rest ih =>
      obtain ⟨k, a⟩ := ka
      have hid : a.ingredient.id = k := hval (k, a) (List.mem_cons_self _ _)
      have hval' : ∀ kb ∈ rest, kb.2.ingredient.id = kb.1 :=
        fun kb hkb => hval kb (List.mem_cons_of_mem _ hkb)
      rw [List.map_cons, List.find?_cons]
      unfold aggLookup
      rw [List.find?_cons]
      dsimp only
      have hpred : decide ((aggToItem a).ingredient_id = i)
          = decide (k = i) := by
        unfold aggToItem
        simp only [hid]
      rw [hpred]
      cases hk : decide (k = i) with
      | true =>
          dsimp only
          rfl
      | false =>
          dsimp only
          exact ih hval'

theorem items_pred_unique (acc : List (ℤ × IngredientAgg)) (i : ℤ)
    (hwf : aggWf acc) :
    ∀ a ∈ acc.map (fun ka => aggToItem ka.2),
      ∀ b ∈ acc.map (fun ka => aggToItem ka.2),
        decide (a.ingredient_id = i) = true →
        decide (b.ingredient_id = i) = true → a = b := by
  intro a ha b hb hpa hpb
  rw [List.mem_map] at ha hb
  obtain ⟨ka, hka, hkaa⟩ := ha
  obtain ⟨kb, hkb, hkbb⟩ := hb
  have hai : a.ingredient_id = i := of_decide_eq_true hpa
  have hbi : b.ingredient_id = i := of_decide_eq_true hpb
  have hkai : ka.1 = i := by
    rw [← hwf.1 ka hka]
    rw [← hkaa] at hai
    exact hai
  have hkbi : kb.1 = i := by
    rw [← hwf.1 kb hkb]
    rw [← hkbb] at hbi
    exact hbi
  have hkk : ka = kb :=
    List.inj_on_of_nodup_map hwf.2 hka hkb (hkai.trans hkbi.symm)
  rw [← hkaa, ← hkbb, hkk]

theorem perm_any_eq {α : Type} (f : α → Bool) {l1 l2 : List α}
    (h : l1.Perm l2) : l1.any f = l2.any f := by
  cases ha : l1.any f with
  | false =>
      cases hb : l2.any f with
      | false => rfl
      | true =>
          rw [List.any_eq_true] at hb
          obtain ⟨x, hx, hfx⟩ := hb
          have : l1.any f = true :=
            List.any_eq_true.mpr ⟨x, h.mem_iff.mpr hx, hfx⟩
          rw [ha] at this
          exact this
  | true =>
      rw [List.any_eq_true] at ha
      obtain ⟨x, hx, hfx⟩ := ha
      exact (List.any_eq_true.mpr ⟨x, h.mem_iff.mp hx, hfx⟩).symm

theorem generate_items_qty (db : DB) (s e : ℤ) (gb ic : Bool) (i : ℤ)
    (plans : List Plan)
    (hplans : plans = if ic
      then db.plans.filter
        (fun p => decide (s ≤ p.date) && decide (p.date ≤ e))
      else (db.plans.filter
        (fun p => decide (s ≤ p.date) && decide (p.date ≤ e))).filter
        (fun p => !p.completed)) :
    ((generate_from_date_range db s e gb ic).items.find?
        (fun it => decide (it.ingredient_id = i))).map
      (fun it => it.total_quantity)
      = if plans.any (planTouches db i)
        then some ((plans.map (planContribution db i)).sum)
        else none := by
  simp only [generate_from_date_range]
  rw [← hplans]
  by_cases hemp : plans.isEmpty = true
  · rw [if_pos hemp]
    have h0 : plans = [] := List.isEmpty_iff.mp hemp
    rw [h0]
    rfl
  · rw [if_neg hemp]
    have hwf : aggWf (plans.foldl
        (fun acc p => aggRecipeRows db acc p.recipe_id p.servings) []) :=
      aggWf_plansFold db plans [] ⟨by simp, by simp⟩
    have huniq0 := items_pred_unique
      (plans.foldl (fun acc p => aggRecipeRows db acc p.recipe_id p.servings) [])
      i hwf
    have hlookup := find?_items_eq_aggLookup
      (plans.foldl (fun acc p => aggRecipeRows db acc p.recipe_id p.servings) [])
      i hwf.1
    have hfold := aggLookup_plansFold db plans [] i
    rw [aggLookup_nil] at hfold
    simp only [Option.getD_none, zero_add] at hfold
    cases gb with
    | true =>
        simp only [if_true]
        rw [find?_congr_perm (fun it => decide (it.ingredient_id = i)) _ _
          (List.perm_insertionSort itemKeyLe _)
          (fun a ha b hb hpa hpb => huniq0 a
            ((List.perm_insertionSort itemKeyLe _).mem_iff.mp ha) b
            ((List.perm_insertionSort itemKeyLe _).mem_iff.mp hb) hpa hpb)]
        rw [hlookup, hfold]
    | false =>
        simp only [Bool.false_eq_true, if_false]
        rw [find?_congr_perm (fun it => decide (it.ingredient_id = i)) _ _
          (List.perm_insertionSort itemNameLe _)
          (fun a ha b hb hpa hpb => huniq0 a
            ((List.perm_insertionSort itemNameLe _).mem_iff.mp ha) b
            ((List.perm_insertionSort itemNameLe _).mem_iff.mp hb) hpa hpb)]
        rw [hlookup, hfold]

/-- C8: shopping-list aggregation is order-independent in `total_quantity` —
for two snapshots that agree on every table except that their plan rows are a
permutation of each other, `generate_from_date_range` reports the same
`total_quantity` for every ingredient id (the item is present in one result
exactly when it is in the other, with equal quantity).  The per-ingredient
running total is a sum of per-entry contributions, and rational addition is
commutative, so the fold's result does not depend on the order the entries
are supplied. -/
theorem C8_total_quantity_order_independent (db1 db2 : DB) (s e : ℤ)
    (gb ic : Bool)
    (hrec : db1.recipes = db2.recipes)
    (hing : db1.ingredients = db2.ingredients)
    (hri : db1.recipe_ingredients = db2.recipe_ingredients)
    (hperm : db1.plans.Perm db2.plans) (i : ℤ) :
    ((generate_from_date_range db1 s e gb ic).items.find?
        (fun it => decide (it.ingredient_id = i))).map
      (fun it => it.total_quantity)
      = ((generate_from_date_range db2 s e gb ic).items.find?
        (fun it => decide (it.ingredient_id = i))).map
      (fun it => it.total_quantity) := by
  have hjoin : ∀ rid, db1.shoppingJoin rid = db2.shoppingJoin rid := by
    intro rid
    unfold DB.shoppingJoin DB.rowsForRecipe DB.findIngredient DB.findRecipe
    rw [hrec, hing, hri]
  have hPT : planTouches db1 i = planTouches db2 i :=
    funext (fun p => by unfold planTouches; rw [hjoin])
  have hPC : planContribution db1 i = planContribution db2 i :=
    funext (fun p => by unfold planContribution; rw [hjoin])
  set pA := if ic
    then db1.plans.filter (fun p => decide (s ≤ p.date) && decide (p.date ≤ e))
    else (db1.plans.filter
      (fun p => decide (s ≤ p.date) && decide (p.date ≤ e))).filter
      (fun p => !p.completed) with hpA
  set pB := if ic
    then db2.plans.filter (fun p => decide (s ≤ p.date) && decide (p.date ≤ e))
    else (db2.plans.filter
      (fun p => decide (s ≤ p.date) && decide (p.date ≤ e))).filter
      (fun p => !p.completed) with hpB
  have hpermF : pA.Perm pB := by
    rw [hpA, hpB]
    cases ic with
    | true =>
        simp only [if_true]
        exact hperm.filter _
    | false =>
        simp only [Bool.false_eq_true, if_false]
        exact (hperm.filter _).filter _
  rw [generate_items_qty db1 s e gb ic i pA hpA,
    generate_items_qty db2 s e gb ic i pB hpB]
  rw [← hPT, ← hPC]
  rw [perm_any_eq (planTouches db1 i) hpermF,
    (hpermF.map (planContribution db1 i)).sum_eq]

/-- Fixture for the C8 witness: the same snapshot with plan rows swapped. -/
def planLunch : Plan :=
  { id := 1, date := 0, meal_type := MealType.lunch, recipe_id := 1,
    servings := 1 }

def planDinner : Plan :=
  { id := 2, date := 0, meal_type := MealType.dinner, recipe_id := 1,
    servings := 2 }

def dbPerm1 : DB :=
  { recipes := [recipeA]
    ingredients := [{ id := 1, name := "X", calories_per_100g := some 100 }]
    recipe_ingredients :=
      [{ recipe_id := 1, ingredient_id := 1, quantity := some 200,
         unit := some "units" }]
    plans := [planLunch, planDinner] }

def dbPerm2 : DB :=
  { recipes := [recipeA]
    ingredients := [{ id := 1, name := "X", calories_per_100g := some 100 }]
    recipe_ingredients :=
      [{ recipe_id := 1, ingredient_id := 1, quantity := some 200,
         unit := some "units" }]
    plans := [planDinner, planLunch] }

/-- C8 witness: the theorem applied to two snapshots whose two plan rows are
swapped. -/
theorem C8_total_quantity_order_independent_witness :
    ((generate_from_date_range dbPerm1 0 0 true false).items.find?
        (fun it => decide (it.ingredient_id = 1))).map
      (fun it => it.total_quantity)
      = ((generate_from_date_range dbPerm2 0 0 true false).items.find?
        (fun it => decide (it.ingredient_id = 1))).map
      (fun it => it.total_quantity) :=
  C8_total_quantity_order_independent dbPerm1 dbPerm2 0 0 true false
    rfl rfl rfl (List.Perm.swap planDinner planLunch []) 1
